import Mathlib

/-!
# Rate controller (`src/lib/rate_control/rate_control.cpp`)

Shallow embedding of the three-axis rate controller: the PID law with feed
forward, the model-free (MFC) law with its sliding windows and quadrature
estimator, and the shared anti-windup integral.

Numbers: every `float` of the source is an exact rational (`ℚ`), so rounding is
outside the model; division by zero follows the convention `x / 0 = 0` of `ℚ`.
`powf` is only ever called with the constant exponents 2, 3 and 5 and is embedded
as a natural power.  Overflow is modelled where the code tests for it: the
expression `rate_i` that `updateIntegral` guards with `PX4_ISFINITE` is computed
with `float_mul` and `float_add` on operands read through `float_result`; the
result is `none` (a non-finite float) as soon as an operand is non-finite or an
exact value exceeds `FLT_MAX` in magnitude.  Where the rounding of binary32 decides a claim (`i_factor`), the
rounding function is a parameter.

Memory: a `float*` buffer is a function `Nat → ℚ` from index to stored
value, so a read or write at any index is defined; a window of length `N`
is the restriction of such a function to the indices `0 .. N-1`.
-/

/-! ## Math utilities (declared outside `rate_control.cpp`) -/

namespace math

/-- Modelled from the spec: the `min` of the math utilities, which is not part of
`rate_control.cpp`; `(a < b) ? a : b`. -/
def min (a b : ℚ) : ℚ := if a < b then a else b

/-- Modelled from the spec: the `max` of the math utilities, which is not part of
`rate_control.cpp`; `(a > b) ? a : b`. -/
def max (a b : ℚ) : ℚ := if a > b then a else b

/-- Modelled from the spec: the `clamp` of the math utilities, which is not part
of `rate_control.cpp`; `(val < min_val) ? min_val : ((val > max_val) ? max_val : val)`. -/
def constrain (val min_val max_val : ℚ) : ℚ :=
  if val < min_val then min_val else if val > max_val then max_val else val

/-- Modelled from the spec: single-precision value of pi used by the
degrees-to-radians conversion of the math utilities. -/
def M_PI_F : ℚ := 13176795 / 4194304

/-- Modelled from the spec: the degrees-to-radians conversion of the math
utilities, which is not part of `rate_control.cpp`; `degrees * (pi / 180)`. -/
def radians (degrees : ℚ) : ℚ := degrees * (M_PI_F / 180)

end math

/-- Modelled from the spec: the largest finite binary32 value, `FLT_MAX` =
(2 - 2^-23) * 2^127. -/
def FLT_MAX : ℚ := 340282346638528859811704183484516925440

/-- The float that holds the exact value `x`, be it a variable or the result of an
arithmetic operation: the finite value `x`, or `none` (infinity) when `x` is beyond
`FLT_MAX`. -/
def float_result (x : ℚ) : Option ℚ := if |x| ≤ FLT_MAX then some x else none

/-- Float product `a * b`; non-finite when an operand is non-finite (infinity
times anything is infinite or NaN) or when the product overflows. -/
def float_mul (a b : Option ℚ) : Option ℚ :=
  match a, b with
  | some x, some y => float_result (x * y)
  | _, _ => none

/-- Float sum `a + b`; non-finite when an operand is non-finite or when the sum
overflows. -/
def float_add (a b : Option ℚ) : Option ℚ :=
  match a, b with
  | some x, some y => float_result (x + y)
  | _, _ => none

/-- Modelled from the spec: the finite-value check `PX4_ISFINITE`, a macro that is
not part of `rate_control.cpp`: true when the float is neither infinite nor NaN. -/
def PX4_ISFINITE (x : Option ℚ) : Bool := x.isSome

/-- The rational value of a float; only used on a float known to be finite. -/
def float_value (x : Option ℚ) : ℚ := x.getD 0

/-! ## Data model -/

/-- Three-axis vector of floats, indexed roll = 0, pitch = 1, yaw = 2. -/
abbrev Vector3f := Fin 3 → ℚ

/-- Three-axis vector of booleans. -/
abbrev Vector3b := Fin 3 → Bool

/-- Element-wise product `a.emult(b)`. -/
def emult (a b : Vector3f) : Vector3f := fun i => a i * b i

/-- The message read from the mode-select subscription; only `channels` is used. -/
structure rc_channels_s where
  channels : Nat → ℚ

/-- The diagnostics record published once per tick. -/
structure pidvalues_s where
  timestamp : Nat
  roll_p : ℚ
  pitch_p : ℚ
  yaw_p : ℚ
  roll_d : ℚ
  pitch_d : ℚ
  yaw_d : ℚ
  roll_i : ℚ
  pitch_i : ℚ
  yaw_i : ℚ
  torque : Vector3f
  roll_f_hat : ℚ
  pitch_f_hat : ℚ
  roll_sp_der : ℚ
  pitch_sp_der : ℚ
  yaw_sp_der : ℚ
  roll_rate_sp : ℚ
  pitch_rate_sp : ℚ
  yaw_rate_sp : ℚ
  roll_rate : ℚ
  pitch_rate : ℚ
  yaw_rate : ℚ
  dt : ℚ

/-- The member variables of `class RateControl`.  `_pid_values_pub` is the log
of the records handed to `publish`, newest first.  `_rc_channel_values` is the
last message copied from the mode-select subscription.  `_mfc_n`, the integer
window length (it sizes the local arrays of `F_hat_F`), is a natural number.
The member `_F_hat_calc` is assigned and returned at once by `F_hat` and read
nowhere else; it is embedded as the returned value. -/
structure RateControl where
  _gain_p : Vector3f
  _gain_i : Vector3f
  _gain_d : Vector3f
  _gain_ff : Vector3f
  _lim_int : Vector3f
  _rate_int : Vector3f
  _control_allocator_saturation_positive : Vector3b
  _control_allocator_saturation_negative : Vector3b
  _rc_channel_values : rc_channels_s
  _pid_values_pub : List pidvalues_s
  _last_u : Vector3f
  _mfc_gain_p : Vector3f
  _mfc_gain_i : Vector3f
  _mfc_gain_d : Vector3f
  _gain_f_hat : ℚ
  _gain_sp : ℚ
  _lambda : ℚ
  _mfc_n : Nat
  _mfc_dt : ℚ
  _roll_last_u : Nat → ℚ
  _pitch_last_u : Nat → ℚ
  _roll_sp_values : Nat → ℚ
  _pitch_sp_values : Nat → ℚ
  _roll_rate_values : Nat → ℚ
  _pitch_rate_values : Nat → ℚ
  _time_steps : Nat → ℚ
  _sp_double_der : Vector3f
  _f_hat : Vector3f
  _current_u : Vector3f

namespace RateControl

/-! ## Setters -/

/-- Embedding of `RateControl::setPidGains`. -/
def setPidGains (s : RateControl) (P I D : Vector3f) : RateControl :=
  { s with _gain_p := P, _gain_i := I, _gain_d := D }

/-- Embedding of `RateControl::setSaturationStatus`. -/
def setSaturationStatus (s : RateControl) (saturation_positive saturation_negative : Vector3b) :
    RateControl :=
  { s with
    _control_allocator_saturation_positive := saturation_positive
    _control_allocator_saturation_negative := saturation_negative }

/-- Embedding of `RateControl::setPositiveSaturationFlag`. -/
def setPositiveSaturationFlag (s : RateControl) (axis : Nat) (is_saturated : Bool) : RateControl :=
  if h : axis < 3 then
    { s with
      _control_allocator_saturation_positive :=
        Function.update s._control_allocator_saturation_positive ⟨axis, h⟩ is_saturated }
  else s

/-- Embedding of `RateControl::setNegativeSaturationFlag`. -/
def setNegativeSaturationFlag (s : RateControl) (axis : Nat) (is_saturated : Bool) : RateControl :=
  if h : axis < 3 then
    { s with
      _control_allocator_saturation_negative :=
        Function.update s._control_allocator_saturation_negative ⟨axis, h⟩ is_saturated }
  else s

/-- Embedding of `RateControl::setMFCGains`. -/
def setMFCGains (s : RateControl) (P I D : Vector3f) (Fhat_gain SP_der_gain Lambda : ℚ) (n : Nat) :
    RateControl :=
  { s with
    _mfc_gain_p := P
    _mfc_gain_i := I
    _mfc_gain_d := D
    _gain_f_hat := Fhat_gain
    _gain_sp := SP_der_gain
    _lambda := Lambda
    _mfc_n := n }

/-! ## Integral update -/

/-- One iteration (axis `i`) of the loop of `RateControl::updateIntegral`, acting
on the controller and on the `rate_error` vector passed by reference.  The sum
`rate_i` is evaluated as a float, left to right as in the source, each operand being
read through `float_result`, so that the guard `PX4_ISFINITE(rate_i)` can fail. -/
def updateIntegral_axis (dt : ℚ) (st : RateControl × Vector3f) (i : Fin 3) :
    RateControl × Vector3f :=
  let s := st.1
  let rate_error := st.2
  -- prevent further positive control saturation
  let rate_error :=
    if s._control_allocator_saturation_positive i then
      Function.update rate_error i (math.min (rate_error i) 0)
    else rate_error
  -- prevent further negative control saturation
  let rate_error :=
    if s._control_allocator_saturation_negative i then
      Function.update rate_error i (math.max (rate_error i) 0)
    else rate_error
  let i_factor := rate_error i / math.radians 400
  let i_factor := math.max 0 (1 - i_factor * i_factor)
  -- if mfc is running use the mfc gain for i
  let rate_i : Option ℚ :=
    if s._rc_channel_values.channels 4 > -1 then
      float_add (float_result (s._rate_int i))
        (float_mul
          (float_mul (float_mul (float_result i_factor) (float_result (s._mfc_gain_i i)))
            (float_result (rate_error i)))
          (float_result dt))
    else
      float_add (float_result (s._rate_int i))
        (float_mul
          (float_mul (float_mul (float_result i_factor) (float_result (s._gain_i i)))
            (float_result (rate_error i)))
          (float_result dt))
  -- do not propagate the result if out of range or invalid
  let s :=
    if PX4_ISFINITE rate_i then
      { s with
        _rate_int :=
          Function.update s._rate_int i
            (math.constrain (float_value rate_i) (-(s._lim_int i)) (s._lim_int i)) }
    else s
  (s, rate_error)

/-- Embedding of `RateControl::updateIntegral`: the loop `for (int i = 0; i < 3; i++)`.  Returns
the controller and the (mutated) `rate_error`. -/
def updateIntegral (s : RateControl) (rate_error : Vector3f) (dt : ℚ) : RateControl × Vector3f :=
  List.foldl (updateIntegral_axis dt) (s, rate_error) [0, 1, 2]

/-! ## MFC sliding windows -/

/-- Embedding of `RateControl::pop`: `for (i = 1; i < _mfc_n; i++) input[i - 1] = input[i]`. -/
def pop (s : RateControl) (input : Nat → ℚ) : Nat → ℚ :=
  List.foldl (fun inp i => Function.update inp (i - 1) (inp i)) input (List.range' 1 (s._mfc_n - 1))

/-- Embedding of `RateControl::push`: `input[_mfc_n - 1] = value`. -/
def push (s : RateControl) (input : Nat → ℚ) (value : ℚ) : Nat → ℚ :=
  Function.update input (s._mfc_n - 1) value

/-- Embedding of `RateControl::push_pop_time`, in place and in source order. -/
def push_pop_time (s : RateControl) (input : Nat → ℚ) (value : ℚ) : Nat → ℚ :=
  let input := Function.update input 0 (input 1 - input 0)
  let input :=
    List.foldl (fun inp i => Function.update inp i (inp (i + 1) - inp i + inp (i - 1))) input
      (List.range' 1 (s._mfc_n - 1 - 1))
  Function.update input (s._mfc_n - 1) (input (s._mfc_n - 2) + value)

/-- Embedding of `RateControl::sum`. -/
def sum (s : RateControl) (input : Nat → ℚ) : ℚ :=
  List.foldl (fun total i => total + input i) 0 (List.range s._mfc_n)

/-! ## MFC estimator -/

/-- Embedding of `RateControl::F_hat`: the four closed-form weightings, selected by `y` and `z`. -/
def F_hat (s : RateControl) (x : ℚ) (y z : Bool) (_f1_measurement _last_f1_u : ℚ) : ℚ :=
  if y && !z then
    (6 / (s._mfc_dt ^ 3)) *
      ((s._mfc_dt - 2 * x) * _f1_measurement - (s._lambda * (s._mfc_dt - x) * x * _last_f1_u))
  else if !y && !z then
    (60 / (s._mfc_dt ^ 5)) *
      (((s._mfc_dt ^ 2 - (6 * (s._mfc_dt - x)) * s._mfc_dt + (6 * (s._mfc_dt - x) ^ 2)) *
          _f1_measurement) -
        ((s._lambda / 2) * (s._mfc_dt - x) ^ 2 * (s._mfc_dt - (s._mfc_dt - x)) ^ 2 * _last_f1_u))
  else if y && z then
    (6 / (s._mfc_dt ^ 3)) * ((s._mfc_dt - 2 * x) * _f1_measurement)
  else
    (60 / (s._mfc_dt ^ 5)) *
      (((s._mfc_dt ^ 2 - (6 * (s._mfc_dt - x)) * s._mfc_dt + (6 * (s._mfc_dt - x) ^ 2)) *
        _f1_measurement))

/-- Embedding of `RateControl::F_hat_F`.  The local arrays `Tot_e` and `Tot_o` start as
all-zero; every entry that is read has been written before. -/
def F_hat_F (s : RateControl) (y z : Bool) (_f_measurement _last_f_u : Nat → ℚ) :
    RateControl × ℚ :=
  let s := { s with _mfc_dt := s._time_steps (s._mfc_n - 1) }
  let Tot : (Nat → ℚ) × (Nat → ℚ) :=
    List.foldl
      (fun T i =>
        (Function.update T.1 (i + 1)
            (4 * F_hat s (s._time_steps (2 * i + 1)) y z (_f_measurement (2 * i + 1))
              (_last_f_u (2 * i + 1))),
          Function.update T.2 i
            (2 * F_hat s (s._time_steps (2 * i)) y z (_f_measurement (2 * i)) (_last_f_u (2 * i)))))
      (fun _ => 0, fun _ => 0) (List.range (s._mfc_n / 2 + 1))
  let Tot_e := Tot.1
  let Tot_o := Tot.2
  let Tot_e := Function.update Tot_e 0 0
  let Tot_e :=
    Function.update Tot_e (s._mfc_n / 2)
      (4 * F_hat s (s._time_steps 1) y z (_f_measurement 1) (_last_f_u 1))
  let Tot_o :=
    Function.update Tot_o 0 (F_hat s (s._time_steps 0) y z (_f_measurement 0) (_last_f_u 0))
  let Tot_o :=
    Function.update Tot_o (s._mfc_n / 2)
      (F_hat s (s._time_steps (s._mfc_n - 1)) y z (_f_measurement (s._mfc_n - 1))
        (_last_f_u (s._mfc_n - 1)))
  let total :=
    List.foldl (fun total k => total + (Tot_e k + Tot_o k) * (s._mfc_dt / 3)) 0
      (List.range (s._mfc_n / 2 + 1))
  (s, total)

/-! ## The two control laws -/

/-- The call `_pid_values_pub.publish(pid_values_storage)`. -/
def publish (s : RateControl) (pid_values_storage : pidvalues_s) : RateControl :=
  { s with _pid_values_pub := pid_values_storage :: s._pid_values_pub }

/-- Lines 164-176 of `RateControl::update_mfc`: the six `pop` calls, `push_pop_time`
and the six `push` calls, in source order. -/
def update_mfc_shift (s : RateControl) (rate rate_sp : Vector3f) (dt : ℚ) : RateControl :=
  let s := { s with _roll_last_u := pop s s._roll_last_u }
  let s := { s with _pitch_last_u := pop s s._pitch_last_u }
  let s := { s with _roll_sp_values := pop s s._roll_sp_values }
  let s := { s with _pitch_sp_values := pop s s._pitch_sp_values }
  let s := { s with _roll_rate_values := pop s s._roll_rate_values }
  let s := { s with _pitch_rate_values := pop s s._pitch_rate_values }
  let s := { s with _time_steps := push_pop_time s s._time_steps dt }
  let s := { s with _roll_last_u := push s s._roll_last_u (s._last_u 0) }
  let s := { s with _pitch_last_u := push s s._pitch_last_u (s._last_u 1) }
  let s := { s with _roll_sp_values := push s s._roll_sp_values (rate_sp 0) }
  let s := { s with _pitch_sp_values := push s s._pitch_sp_values (rate_sp 1) }
  let s := { s with _roll_rate_values := push s s._roll_rate_values (rate 0) }
  let s := { s with _pitch_rate_values := push s s._pitch_rate_values (rate 1) }
  s

/-- Lines 179-189 of `RateControl::update_mfc`: the body of `if (!landed)`.  Returns
the controller and the new value of the local `torque`. -/
def update_mfc_command (s : RateControl) (rate_error p_values d_values rate_sp : Vector3f)
    (dt : ℚ) : RateControl × Vector3f :=
  let s := (updateIntegral s rate_error dt).1
  let r := F_hat_F s false true s._roll_sp_values s._roll_last_u
  let s := { r.1 with _sp_double_der := Function.update r.1._sp_double_der 0 (r.2 * r.1._gain_sp) }
  let r := F_hat_F s false true s._pitch_sp_values s._pitch_last_u
  let s := { r.1 with _sp_double_der := Function.update r.1._sp_double_der 1 (r.2 * r.1._gain_sp) }
  let r := F_hat_F s false false s._roll_rate_values s._roll_last_u
  let s := { r.1 with _f_hat := Function.update r.1._f_hat 0 (r.2 * r.1._gain_f_hat) }
  let r := F_hat_F s false false s._pitch_rate_values s._pitch_last_u
  let s := { r.1 with _f_hat := Function.update r.1._f_hat 1 (r.2 * r.1._gain_f_hat) }
  let torque : Vector3f := p_values + s._rate_int - d_values + emult s._gain_ff rate_sp
  let s :=
    { s with
      _current_u :=
        Function.update s._current_u 0 ((s._sp_double_der 0 + torque 0 - s._f_hat 0) / s._lambda) }
  let s :=
    { s with
      _current_u :=
        Function.update s._current_u 1 ((s._sp_double_der 1 + torque 1 - s._f_hat 1) / s._lambda) }
  let s := { s with _current_u := Function.update s._current_u 2 (torque 2) }
  let s := { s with _last_u := s._current_u }
  (s, s._current_u)

/-- Embedding of `RateControl::update_mfc`; `now` is the value read from `hrt_absolute_time()`. -/
def update_mfc (s : RateControl) (now : Nat) (rate rate_sp angular_accel : Vector3f) (dt : ℚ)
    (landed : Bool) : RateControl × Vector3f :=
  -- angular rates error
  let rate_error : Vector3f := rate_sp - rate
  -- PID control with feed forward
  let p_values := emult s._mfc_gain_p rate_error
  let d_values := emult s._mfc_gain_d angular_accel
  let torque : Vector3f := p_values + s._rate_int - d_values + emult s._gain_ff rate_sp
  let s := update_mfc_shift s rate rate_sp dt
  -- update integral only if we are not landed
  let st :=
    if !landed then update_mfc_command s rate_error p_values d_values rate_sp dt else (s, torque)
  let s := st.1
  let torque := st.2
  let pid_values_storage : pidvalues_s :=
    { timestamp := now
      roll_p := p_values 0
      pitch_p := p_values 1
      yaw_p := p_values 2
      roll_d := d_values 0
      pitch_d := d_values 1
      yaw_d := d_values 2
      roll_i := s._rate_int 0
      pitch_i := s._rate_int 1
      yaw_i := s._rate_int 2
      roll_f_hat := s._f_hat 0
      pitch_f_hat := s._f_hat 1
      roll_sp_der := s._sp_double_der 0
      pitch_sp_der := s._sp_double_der 1
      yaw_sp_der := s._sp_double_der 2
      dt := s._mfc_dt
      torque := fun i => s._current_u i
      roll_rate_sp := rate_sp 0
      pitch_rate_sp := rate_sp 1
      yaw_rate_sp := rate_sp 2
      roll_rate := rate 0
      pitch_rate := rate 1
      yaw_rate := rate 2 }
  let s := publish s pid_values_storage
  let s := { s with _last_u := torque }
  (s, torque)

/-- Embedding of `RateControl::update`.  `rc` is the message that `_rc_channel_sub.copy` stores
into `_rc_channel_values`; `now` is the value read from `hrt_absolute_time()`.
Returns the controller after the call and the returned torque. -/
def update (s : RateControl) (rc : rc_channels_s) (now : Nat)
    (rate rate_sp angular_accel : Vector3f) (dt : ℚ) (landed : Bool) : RateControl × Vector3f :=
  let s := { s with _rc_channel_values := rc }
  if s._rc_channel_values.channels 4 > -1 then
    update_mfc s now rate rate_sp angular_accel dt landed
  else
    -- angular rates error
    let rate_error : Vector3f := rate_sp - rate
    -- PID control with feed forward
    let p_values := emult s._gain_p rate_error
    let d_values := emult s._gain_d angular_accel
    let torque : Vector3f := p_values + s._rate_int - d_values + emult s._gain_ff rate_sp
    let pid_values_storage : pidvalues_s :=
      { timestamp := now
        roll_p := p_values 0
        pitch_p := p_values 1
        yaw_p := p_values 2
        roll_d := d_values 0
        pitch_d := d_values 1
        yaw_d := d_values 2
        roll_i := s._rate_int 0
        pitch_i := s._rate_int 1
        yaw_i := s._rate_int 2
        torque := fun i => torque i
        roll_f_hat := 0
        pitch_f_hat := 0
        roll_sp_der := 0
        pitch_sp_der := 0
        yaw_sp_der := 0
        roll_rate_sp := rate_sp 0
        pitch_rate_sp := rate_sp 1
        yaw_rate_sp := rate_sp 2
        roll_rate := rate 0
        pitch_rate := rate 1
        yaw_rate := rate 2
        dt := dt }
    let s := publish s pid_values_storage
    -- update integral only if we are not landed
    let s := if !landed then (updateIntegral s rate_error dt).1 else s
    let s := { s with _last_u := torque }
    (s, torque)

/-! ## Closed form of the integral update -/

/-- The rate error of axis `i` after the two saturation clamps of `updateIntegral`. -/
def clamped_error (s : RateControl) (rate_error : Vector3f) (i : Fin 3) : ℚ :=
  let e := if s._control_allocator_saturation_positive i then math.min (rate_error i) 0
    else rate_error i
  if s._control_allocator_saturation_negative i then math.max e 0 else e

/-- The integral gain that `updateIntegral` selects from the stored channel value. -/
def selected_gain_i (s : RateControl) : Vector3f :=
  if s._rc_channel_values.channels 4 > -1 then s._mfc_gain_i else s._gain_i

/-- The float `rate_i` that `updateIntegral` computes for axis `i`. -/
def rate_i (s : RateControl) (rate_error : Vector3f) (dt : ℚ) (i : Fin 3) : Option ℚ :=
  let e := clamped_error s rate_error i
  let i_factor := math.max 0 (1 - (e / math.radians 400) * (e / math.radians 400))
  float_add (float_result (s._rate_int i))
    (float_mul
      (float_mul (float_mul (float_result i_factor) (float_result (selected_gain_i s i)))
        (float_result e))
      (float_result dt))

/-- The value of `_rate_int(i)` after `updateIntegral`: the constrained `rate_i` when
it is finite, the old value otherwise. -/
def next_integral (s : RateControl) (rate_error : Vector3f) (dt : ℚ) (i : Fin 3) : ℚ :=
  if PX4_ISFINITE (rate_i s rate_error dt i) then
    math.constrain (float_value (rate_i s rate_error dt i)) (-(s._lim_int i)) (s._lim_int i)
  else s._rate_int i

/-! ## Calls and concrete scenarios -/

/-- A controller with every member zero, except a unit integral limit, `lambda = 1`
and a window of length 4. -/
def idle : RateControl :=
  { _gain_p := 0, _gain_i := 0, _gain_d := 0, _gain_ff := 0, _lim_int := ![1, 1, 1], _rate_int := 0
    _control_allocator_saturation_positive := fun _ => false
    _control_allocator_saturation_negative := fun _ => false
    _rc_channel_values := { channels := fun _ => 0 }
    _pid_values_pub := []
    _last_u := 0, _mfc_gain_p := 0, _mfc_gain_i := 0, _mfc_gain_d := 0
    _gain_f_hat := 0, _gain_sp := 0, _lambda := 1, _mfc_n := 4, _mfc_dt := 0
    _roll_last_u := fun _ => 0, _pitch_last_u := fun _ => 0
    _roll_sp_values := fun _ => 0, _pitch_sp_values := fun _ => 0
    _roll_rate_values := fun _ => 0, _pitch_rate_values := fun _ => 0
    _time_steps := fun _ => 0
    _sp_double_der := 0, _f_hat := 0, _current_u := 0 }

/-- A mode-select message that selects the PID law (channel 4 at exactly -1.0). -/
def rc_pid : rc_channels_s := { channels := fun _ => -1 }

/-- A mode-select message that selects the MFC law (channel 4 at 0). -/
def rc_mfc : rc_channels_s := { channels := fun _ => 0 }

/-- The scenario of the specification: PID gains P = [1,1,1], I = D = FF = 0; in
addition MFC gains P = I = [1,1,1], D = 0, lambda = 1, N = 4. -/
def scenario : RateControl :=
  setMFCGains (setPidGains idle ![1, 1, 1] 0 0) ![1, 1, 1] ![1, 1, 1] 0 0 0 1 4

/-- The scenario controller after one not-landed MFC tick with setpoint [1,0,0]. -/
def scenario_after_mfc : RateControl :=
  (update scenario rc_mfc 0 0 ![1, 0, 0] 0 (1 / 250) false).1

/-- The value returned by `F_hat_F`, as a function of the only members it reads:
the window length, the time-offset buffer and `lambda`. -/
def F_hat_F_value (n : Nat) (t : Nat → ℚ) (lambda : ℚ) (y z : Bool) (m u : Nat → ℚ) : ℚ :=
  (F_hat_F { idle with _mfc_n := n, _time_steps := t, _lambda := lambda } y z m u).2

/-- One call of a public member function of the controller. -/
inductive Call where
  | setPidGains (P I D : Vector3f)
  | setSaturationStatus (saturation_positive saturation_negative : Vector3b)
  | setPositiveSaturationFlag (axis : Nat) (is_saturated : Bool)
  | setNegativeSaturationFlag (axis : Nat) (is_saturated : Bool)
  | setMFCGains (P I D : Vector3f) (Fhat_gain SP_der_gain Lambda : ℚ) (n : Nat)
  | update (rc : rc_channels_s) (now : Nat) (rate rate_sp angular_accel : Vector3f) (dt : ℚ)
      (landed : Bool)

/-- The controller after one call. -/
def call (s : RateControl) : Call → RateControl
  | .setPidGains P I D => setPidGains s P I D
  | .setSaturationStatus p n => setSaturationStatus s p n
  | .setPositiveSaturationFlag axis b => setPositiveSaturationFlag s axis b
  | .setNegativeSaturationFlag axis b => setNegativeSaturationFlag s axis b
  | .setMFCGains P I D Fhat_gain SP_der_gain Lambda n =>
      setMFCGains s P I D Fhat_gain SP_der_gain Lambda n
  | .update rc now rate rate_sp angular_accel dt landed =>
      (update s rc now rate rate_sp angular_accel dt landed).1

/-- The controller after a sequence of calls, in order. -/
def calls (s : RateControl) (cs : List Call) : RateControl := List.foldl call s cs

/-- A PID-law controller with a negative integral gain and the positive
saturation flag of roll set. -/
def windup : RateControl :=
  setSaturationStatus (setPidGains { idle with _rc_channel_values := rc_pid } 0 ![-1, -1, -1] 0)
    ![true, false, false] (fun _ => false)

/-- The saturation scenario of the specification: P = I = [1,1,1], D = 0, positive
saturation flags [true,false,false], PID law. -/
def saturated : RateControl :=
  setSaturationStatus
    (setPidGains { idle with _rc_channel_values := rc_pid } ![1, 1, 1] ![1, 1, 1] 0)
    ![true, false, false] (fun _ => false)

/-- The value `old + f*g*e*dt` of `rate_i` is computed without leaving the finite
floats: none of the five operands, of the three products, taken in the order of the
source (`((i_factor * gain) * rate_error) * dt`), and of the final sum exceeds
`FLT_MAX` in magnitude. -/
def no_overflow (old f g e dt : ℚ) : Prop :=
  (|old| ≤ FLT_MAX ∧ |f| ≤ FLT_MAX ∧ |g| ≤ FLT_MAX ∧ |e| ≤ FLT_MAX ∧ |dt| ≤ FLT_MAX) ∧
    |f * g| ≤ FLT_MAX ∧ |f * g * e| ≤ FLT_MAX ∧ |f * g * e * dt| ≤ FLT_MAX ∧
    |old + f * g * e * dt| ≤ FLT_MAX

/-- A PID-law controller with the finite integral gain 3e38, limit 1 and a prior
integral of 0.5: with a rate error of 2 and dt = 1 the product `i_factor * gain * 2`
exceeds `FLT_MAX`. -/
def overflowing : RateControl :=
  { idle with
    _rc_channel_values := rc_pid
    _gain_i := fun _ => 300000000000000000000000000000000000000
    _rate_int := fun _ => 1 / 2 }

/-- The controller `overflowing` with a prior integral of -5, below the limit 1, and
the positive saturation flag of roll set. -/
def overflowing_low : RateControl :=
  { idle with
    _rc_channel_values := rc_pid
    _gain_i := fun _ => 300000000000000000000000000000000000000
    _rate_int := fun _ => -5
    _control_allocator_saturation_positive := ![true, false, false] }

/-- The weights of the specification: 1 at both endpoints of a window of length `N`,
4 at interior odd indices, 2 at interior even indices. -/
def simpson_weight (N i : Nat) : ℚ :=
  if i = 0 ∨ i = N - 1 then 1 else if i % 2 = 1 then 4 else 2

/-- The quadrature as the specification words it: `(_mfc_dt / 3)` times the
weighted sum of `F_hat` over the `N` window samples, with `simpson_weight`. -/
def simpson_spec (s : RateControl) (y z : Bool) (m u : Nat → ℚ) : ℚ :=
  let dt := s._time_steps (s._mfc_n - 1)
  (dt / 3) *
    ∑ i ∈ Finset.range s._mfc_n,
      simpson_weight s._mfc_n i *
        F_hat { s with _mfc_dt := dt } (s._time_steps i) y z (m i) (u i)

/-- A controller with window length 4 and time offsets 0, 1, 2, 3. -/
def quad : RateControl := { idle with _time_steps := fun i => (i : ℚ) }

/-- A measurement window that is 1 at index 1 and 0 elsewhere. -/
def quad_m : Nat → ℚ := fun i => if i = 1 then 1 else 0

/-- An all-zero last-output window. -/
def quad_u : Nat → ℚ := fun _ => 0

/-- A controller with window length 4 whose roll setpoint window holds 0, 1, 2, 3
and whose cached last output is [5, 6, 0]. -/
def ramp : RateControl :=
  { idle with _roll_sp_values := fun i => (i : ℚ), _last_u := ![5, 6, 0] }

/-- A controller with window length 3 whose time offsets 1, 3, 4 are the prefix sums
of the unequal timesteps 1, 2, 1. -/
def jitter : RateControl :=
  { idle with _mfc_n := 3, _time_steps := fun i => if i = 0 then 1 else if i = 1 then 3 else 4 }

/-- The I term factor of `updateIntegral` (the two assignments to the local
`i_factor`), as a function of the clamped rate error of the axis; `ref` is the value
of `math::radians(400.f)` and `fl` the rounding applied to the result of each float
operation.  With `fl = id` and `ref = math.radians 400` it is the exact factor used
in `updateIntegral_axis`. -/
def i_factor (fl : ℚ → ℚ) (ref : ℚ) (rate_error_i : ℚ) : ℚ :=
  let i_factor := fl (rate_error_i / ref)
  math.max 0 (fl (1 - fl (i_factor * i_factor)))

/-! ## Bounds-checked estimator

The same `F_hat_F`, over buffers of known length: a read or write outside the
buffer yields `none`. -/

/-- Checked read `buf[i]`. -/
def load (buf : List ℚ) (i : Nat) : Option ℚ := buf[i]?

/-- Checked write `buf[i] = v`. -/
def store (buf : List ℚ) (i : Nat) (v : ℚ) : Option (List ℚ) :=
  if i < buf.length then some (buf.set i v) else none

/-- The call `F_hat(_time_steps[i], y, z, _f_measurement[i], _last_f_u[i])` with
checked reads. -/
def F_hat_at (s : RateControl) (y z : Bool) (_time_steps _f_measurement _last_f_u : List ℚ)
    (i : Nat) : Option ℚ := do
  let x ← load _time_steps i
  let f ← load _f_measurement i
  let u ← load _last_f_u i
  pure (F_hat s x y z f u)

/-- One iteration of the first loop of `F_hat_F`, with checked reads and writes. -/
def F_hat_F_loop (s : RateControl) (y z : Bool) (_time_steps _f_measurement _last_f_u : List ℚ)
    (T : List ℚ × List ℚ) (i : Nat) : Option (List ℚ × List ℚ) := do
  let e ← F_hat_at s y z _time_steps _f_measurement _last_f_u (2 * i + 1)
  let Tot_e ← store T.1 (i + 1) (4 * e)
  let o ← F_hat_at s y z _time_steps _f_measurement _last_f_u (2 * i)
  let Tot_o ← store T.2 i (2 * o)
  pure (Tot_e, Tot_o)

/-- Embedding of `RateControl::F_hat_F` with every array access checked: the
time-offset, measurement and last-output buffers are lists, `Tot_e` and `Tot_o` are
lists of length `_mfc_n`. -/
def F_hat_F_checked (s : RateControl) (y z : Bool) (_time_steps _f_measurement _last_f_u : List ℚ) :
    Option ℚ := do
  let _mfc_dt ← load _time_steps (s._mfc_n - 1)
  let s := { s with _mfc_dt := _mfc_dt }
  let Tot ← List.foldlM (F_hat_F_loop s y z _time_steps _f_measurement _last_f_u)
    (List.replicate s._mfc_n 0, List.replicate s._mfc_n 0) (List.range (s._mfc_n / 2 + 1))
  let Tot_e ← store Tot.1 0 0
  let e ← F_hat_at s y z _time_steps _f_measurement _last_f_u 1
  let Tot_e ← store Tot_e (s._mfc_n / 2) (4 * e)
  let o ← F_hat_at s y z _time_steps _f_measurement _last_f_u 0
  let Tot_o ← store Tot.2 0 o
  let o ← F_hat_at s y z _time_steps _f_measurement _last_f_u (s._mfc_n - 1)
  let Tot_o ← store Tot_o (s._mfc_n / 2) o
  List.foldlM
    (fun total k => do
      let e ← load Tot_e k
      let o ← load Tot_o k
      pure (total + (e + o) * (s._mfc_dt / 3)))
    (0 : ℚ) (List.range (s._mfc_n / 2 + 1))

/-- A time-offset buffer of length 4. -/
def quad_t : List ℚ := [0, 1, 2, 3]

end RateControl

/-! ## Lemmas on the integral update and its frame -/

namespace RateControl

theorem clamped_error_congr (s t : RateControl) (e e2 : Vector3f) (i : Fin 3)
    (hp : t._control_allocator_saturation_positive i = s._control_allocator_saturation_positive i)
    (hn : t._control_allocator_saturation_negative i = s._control_allocator_saturation_negative i)
    (he : e2 i = e i) : clamped_error t e2 i = clamped_error s e i := by
  simp only [clamped_error, hp, hn, he]

theorem rate_i_congr (s t : RateControl) (e e2 : Vector3f) (dt : ℚ) (i : Fin 3)
    (hp : t._control_allocator_saturation_positive i = s._control_allocator_saturation_positive i)
    (hn : t._control_allocator_saturation_negative i = s._control_allocator_saturation_negative i)
    (hc : t._rc_channel_values = s._rc_channel_values)
    (hg : t._gain_i i = s._gain_i i) (hm : t._mfc_gain_i i = s._mfc_gain_i i)
    (hr : t._rate_int i = s._rate_int i) (he : e2 i = e i) :
    rate_i t e2 dt i = rate_i s e dt i := by
  have hsel : selected_gain_i t i = selected_gain_i s i := by
    unfold selected_gain_i
    rw [hc]
    split_ifs
    · exact hm
    · exact hg
  simp only [rate_i, clamped_error_congr s t e e2 i hp hn he, hsel, hr]

theorem next_integral_congr (s t : RateControl) (e e2 : Vector3f) (dt : ℚ) (i : Fin 3)
    (hp : t._control_allocator_saturation_positive i = s._control_allocator_saturation_positive i)
    (hn : t._control_allocator_saturation_negative i = s._control_allocator_saturation_negative i)
    (hc : t._rc_channel_values = s._rc_channel_values)
    (hg : t._gain_i i = s._gain_i i) (hm : t._mfc_gain_i i = s._mfc_gain_i i)
    (hl : t._lim_int i = s._lim_int i)
    (hr : t._rate_int i = s._rate_int i) (he : e2 i = e i) :
    next_integral t e2 dt i = next_integral s e dt i := by
  simp only [next_integral, rate_i_congr s t e e2 dt i hp hn hc hg hm hr he, hl, hr]

theorem updateIntegral_axis_snd (dt : ℚ) (st : RateControl × Vector3f) (i : Fin 3) :
    (updateIntegral_axis dt st i).2 = Function.update st.2 i (clamped_error st.1 st.2 i) := by
  unfold updateIntegral_axis clamped_error
  by_cases hp : st.1._control_allocator_saturation_positive i = true <;>
    by_cases hn : st.1._control_allocator_saturation_negative i = true <;>
    simp [hp, hn]

theorem updateIntegral_axis_fst (dt : ℚ) (st : RateControl × Vector3f) (i : Fin 3) :
    (updateIntegral_axis dt st i).1 =
      { st.1 with
        _rate_int := Function.update st.1._rate_int i (next_integral st.1 st.2 dt i) } := by
  unfold updateIntegral_axis next_integral rate_i clamped_error selected_gain_i
  by_cases hp : st.1._control_allocator_saturation_positive i = true <;>
    by_cases hn : st.1._control_allocator_saturation_negative i = true <;>
    by_cases hc : st.1._rc_channel_values.channels 4 > -1 <;>
    simp only [hp, hn, hc, if_true, if_false, Bool.false_eq_true, Function.update_same,
      Function.update_idem] <;>
    split_ifs <;> simp


/-- The three loop iterations of `updateIntegral` act axis by axis: only
`_rate_int` changes, and each axis sees its own entry values. -/
theorem updateIntegral_eq (s : RateControl) (rate_error : Vector3f) (dt : ℚ) :
    updateIntegral s rate_error dt =
      ({ s with _rate_int := fun i => next_integral s rate_error dt i },
        fun i => clamped_error s rate_error i) := by
  unfold updateIntegral
  simp only [List.foldl]
  refine Prod.ext ?_ ?_
  · simp only [updateIntegral_axis_fst, updateIntegral_axis_snd]
    have key : ∀ (a b : Vector3f), a = b →
        ({ s with _rate_int := a } : RateControl) = { s with _rate_int := b } := by
      intro a b h; rw [h]
    apply key
    funext j
    fin_cases j
    · simp only [Fin.zero_eta, Fin.isValue, ne_eq, Fin.reduceEq, not_false_eq_true,
        Function.update_noteq, Function.update_same]
    · simp only [Fin.mk_one, Fin.isValue, ne_eq, Fin.reduceEq, not_false_eq_true,
        Function.update_noteq, Function.update_same]
      exact next_integral_congr _ _ _ _ _ _ rfl rfl rfl rfl rfl rfl
        (by simp [Function.update]) (by simp [Function.update])
    · simp only [Fin.reduceFinMk, Fin.isValue, Function.update_same]
      exact next_integral_congr _ _ _ _ _ _ rfl rfl rfl rfl rfl rfl
        (by simp [Function.update]) (by simp [Function.update])
  · simp only [updateIntegral_axis_fst, updateIntegral_axis_snd]
    funext j
    fin_cases j <;>
      simp [clamped_error, Function.update]

theorem F_hat_F_fst (s : RateControl) (y z : Bool) (m u : Nat → ℚ) :
    (F_hat_F s y z m u).1 = { s with _mfc_dt := s._time_steps (s._mfc_n - 1) } := by
  unfold F_hat_F
  simp only

theorem update_mfc_shift_eq (s : RateControl) (rate rate_sp : Vector3f) (dt : ℚ) :
    update_mfc_shift s rate rate_sp dt =
      { s with
        _roll_last_u := push s (pop s s._roll_last_u) (s._last_u 0)
        _pitch_last_u := push s (pop s s._pitch_last_u) (s._last_u 1)
        _roll_sp_values := push s (pop s s._roll_sp_values) (rate_sp 0)
        _pitch_sp_values := push s (pop s s._pitch_sp_values) (rate_sp 1)
        _roll_rate_values := push s (pop s s._roll_rate_values) (rate 0)
        _pitch_rate_values := push s (pop s s._pitch_rate_values) (rate 1)
        _time_steps := push_pop_time s s._time_steps dt } := by
  unfold update_mfc_shift push pop push_pop_time
  simp only

theorem next_integral_shift (s : RateControl) (rate rate_sp e : Vector3f) (dt : ℚ) (i : Fin 3) :
    next_integral (update_mfc_shift s rate rate_sp dt) e dt i = next_integral s e dt i := by
  rw [update_mfc_shift_eq]
  exact next_integral_congr _ _ _ _ _ _ rfl rfl rfl rfl rfl rfl rfl rfl

/-- The integral state after `update`: untouched when landed, otherwise the value
committed by `updateIntegral` with the channel value stored by this call. -/
theorem update_rate_int (s : RateControl) (rc : rc_channels_s) (now : Nat)
    (rate rate_sp angular_accel : Vector3f) (dt : ℚ) (landed : Bool) :
    (update s rc now rate rate_sp angular_accel dt landed).1._rate_int =
      if landed then s._rate_int
      else fun i => next_integral { s with _rc_channel_values := rc } (rate_sp - rate) dt i := by
  unfold update
  by_cases hc : rc.channels 4 > -1 <;> cases landed <;>
    simp [hc, update_mfc, update_mfc_command, F_hat_F, updateIntegral_eq,
      publish, next_integral_shift]
  · simp [update_mfc_shift]
  · funext i
    exact next_integral_congr _ _ _ _ _ _ rfl rfl rfl rfl rfl rfl rfl rfl

/-- The configuration members are not written by `update`. -/
theorem update_config (s : RateControl) (rc : rc_channels_s) (now : Nat)
    (rate rate_sp angular_accel : Vector3f) (dt : ℚ) (landed : Bool) :
    (update s rc now rate rate_sp angular_accel dt landed).1._lim_int = s._lim_int ∧
    (update s rc now rate rate_sp angular_accel dt landed).1._gain_p = s._gain_p ∧
    (update s rc now rate rate_sp angular_accel dt landed).1._gain_i = s._gain_i ∧
    (update s rc now rate rate_sp angular_accel dt landed).1._gain_d = s._gain_d ∧
    (update s rc now rate rate_sp angular_accel dt landed).1._gain_ff = s._gain_ff ∧
    (update s rc now rate rate_sp angular_accel dt landed).1._mfc_gain_p = s._mfc_gain_p ∧
    (update s rc now rate rate_sp angular_accel dt landed).1._mfc_gain_i = s._mfc_gain_i ∧
    (update s rc now rate rate_sp angular_accel dt landed).1._mfc_gain_d = s._mfc_gain_d := by
  unfold update
  by_cases hc : rc.channels 4 > -1 <;> cases landed <;>
    simp [hc, update_mfc, update_mfc_command, update_mfc_shift, F_hat_F, updateIntegral_eq,
      publish]

/-- The cached last output after `update` is the returned torque. -/
theorem update_last_u (s : RateControl) (rc : rc_channels_s) (now : Nat)
    (rate rate_sp angular_accel : Vector3f) (dt : ℚ) (landed : Bool) :
    (update s rc now rate rate_sp angular_accel dt landed).1._last_u =
      (update s rc now rate rate_sp angular_accel dt landed).2 := by
  unfold update
  by_cases hc : rc.channels 4 > -1 <;> simp [hc, update_mfc, publish]

/-! ## Lemmas on the MFC command -/

theorem F_hat_F_snd (s : RateControl) (y z : Bool) (m u : Nat → ℚ) :
    (F_hat_F s y z m u).2 = F_hat_F_value s._mfc_n s._time_steps s._lambda y z m u := by
  unfold F_hat_F_value F_hat_F F_hat
  simp only

theorem update_mfc_command_snd (s : RateControl) (rate_error p_values d_values rate_sp : Vector3f)
    (dt : ℚ) :
    (update_mfc_command s rate_error p_values d_values rate_sp dt).2 =
      let torque : Vector3f :=
        p_values + (fun i => next_integral s rate_error dt i) - d_values + emult s._gain_ff rate_sp
      Function.update (Function.update (Function.update s._current_u 0
        ((F_hat_F_value s._mfc_n s._time_steps s._lambda false true s._roll_sp_values s._roll_last_u
            * s._gain_sp + torque 0
          - F_hat_F_value s._mfc_n s._time_steps s._lambda false false s._roll_rate_values
            s._roll_last_u * s._gain_f_hat) / s._lambda)) 1
        ((F_hat_F_value s._mfc_n s._time_steps s._lambda false true s._pitch_sp_values
            s._pitch_last_u * s._gain_sp + torque 1
          - F_hat_F_value s._mfc_n s._time_steps s._lambda false false s._pitch_rate_values
            s._pitch_last_u * s._gain_f_hat) / s._lambda)) 2 (torque 2) := by
  unfold update_mfc_command
  simp only [F_hat_F_fst, F_hat_F_snd, updateIntegral_eq]
  simp

theorem update_mfc_snd (s : RateControl) (rc : rc_channels_s) (now : Nat)
    (rate rate_sp angular_accel : Vector3f) (dt : ℚ) (h : rc.channels 4 > -1) :
    (update s rc now rate rate_sp angular_accel dt false).2 =
      (update_mfc_command (update_mfc_shift { s with _rc_channel_values := rc } rate rate_sp dt)
        (rate_sp - rate) (emult s._mfc_gain_p (rate_sp - rate)) (emult s._mfc_gain_d angular_accel)
        rate_sp dt).2 := by
  simp [update, h, update_mfc]

theorem push_congr (s t : RateControl) (h : t._mfc_n = s._mfc_n) : push t = push s := by
  funext a b; simp only [push, h]

theorem pop_congr (s t : RateControl) (h : t._mfc_n = s._mfc_n) : pop t = pop s := by
  funext a; simp only [pop, h]

theorem push_pop_time_congr (s t : RateControl) (h : t._mfc_n = s._mfc_n) :
    push_pop_time t = push_pop_time s := by
  funext a b; simp only [push_pop_time, h]

/-- The torque returned by a not-landed tick of the MFC law. -/
theorem update_mfc_torque (s : RateControl) (rc : rc_channels_s) (now : Nat)
    (rate rate_sp angular_accel : Vector3f) (dt : ℚ) (h : rc.channels 4 > -1) :
    let w : RateControl := { s with _time_steps := push_pop_time s s._time_steps dt }
    let roll_u := push s (pop s s._roll_last_u) (s._last_u 0)
    let pitch_u := push s (pop s s._pitch_last_u) (s._last_u 1)
    let integral :=
      (updateIntegral { s with _rc_channel_values := rc } (rate_sp - rate) dt).1._rate_int
    let c : Vector3f := fun i =>
      s._mfc_gain_p i * (rate_sp i - rate i) + integral i - s._mfc_gain_d i * angular_accel i
        + s._gain_ff i * rate_sp i
    let u := (update s rc now rate rate_sp angular_accel dt false).2
    u 0 =
        (s._gain_sp * (F_hat_F w false true (push s (pop s s._roll_sp_values) (rate_sp 0)) roll_u).2
          + c 0
          - s._gain_f_hat *
            (F_hat_F w false false (push s (pop s s._roll_rate_values) (rate 0)) roll_u).2)
        / s._lambda ∧
    u 1 =
        (s._gain_sp *
            (F_hat_F w false true (push s (pop s s._pitch_sp_values) (rate_sp 1)) pitch_u).2
          + c 1
          - s._gain_f_hat *
            (F_hat_F w false false (push s (pop s s._pitch_rate_values) (rate 1)) pitch_u).2)
        / s._lambda ∧
    u 2 = c 2 := by
  intro w roll_u pitch_u integral c u
  have hp : push { s with _rc_channel_values := rc } = push s := push_congr _ _ rfl
  have hq : pop { s with _rc_channel_values := rc } = pop s := pop_congr _ _ rfl
  have ht : push_pop_time { s with _rc_channel_values := rc } = push_pop_time s :=
    push_pop_time_congr _ _ rfl
  simp only [w, roll_u, pitch_u, integral, c, u, F_hat_F_snd, update_mfc_snd s rc now rate rate_sp
    angular_accel dt h, update_mfc_command_snd, updateIntegral_eq, next_integral_shift]
  simp only [update_mfc_shift_eq, hp, hq, ht]
  simp [emult, mul_comm]

/-! ## Lemmas on clamping and the integral bound -/

theorem constrain_abs_le (x l : ℚ) (hl : 0 ≤ l) : |math.constrain x (-l) l| ≤ l := by
  unfold math.constrain
  split_ifs with h1 h2
  · rw [abs_neg, abs_of_nonneg hl]
  · rw [abs_of_nonneg hl]
  · rw [abs_le]; constructor <;> linarith

theorem constrain_mono (x y l : ℚ) (hl : 0 ≤ l) (hxy : x ≤ y) :
    math.constrain x (-l) l ≤ math.constrain y (-l) l := by
  unfold math.constrain
  split_ifs <;> linarith

theorem constrain_self (x l : ℚ) (h : |x| ≤ l) : math.constrain x (-l) l = x := by
  unfold math.constrain
  rw [abs_le] at h
  split_ifs <;> linarith

theorem max_zero_nonneg (x : ℚ) : 0 ≤ math.max 0 x := by
  unfold math.max
  split_ifs <;> linarith

theorem clamped_error_pos (s : RateControl) (e : Vector3f) (i : Fin 3)
    (hp : s._control_allocator_saturation_positive i = true) (he : 0 ≤ e i) :
    clamped_error s e i = 0 := by
  have h1 : ¬ e i < 0 := not_lt.mpr he
  unfold clamped_error math.min math.max
  simp [hp, h1]

theorem clamped_error_neg (s : RateControl) (e : Vector3f) (i : Fin 3)
    (hn : s._control_allocator_saturation_negative i = true) (he : e i ≤ 0) :
    clamped_error s e i = 0 := by
  unfold clamped_error math.min math.max
  simp only [hn, if_true]
  split_ifs <;> linarith

theorem clamped_error_clear (s : RateControl) (e : Vector3f) (i : Fin 3)
    (hp : s._control_allocator_saturation_positive i = false) (he : 0 ≤ e i) :
    clamped_error s e i = e i := by
  unfold clamped_error math.max
  simp only [hp, Bool.false_eq_true, if_false]
  split_ifs <;> linarith

theorem clamped_error_none (s : RateControl) (e : Vector3f) (i : Fin 3)
    (hp : s._control_allocator_saturation_positive i = false)
    (hn : s._control_allocator_saturation_negative i = false) :
    clamped_error s e i = e i := by
  simp [clamped_error, hp, hn]

theorem float_result_eq_some (x r : ℚ) (h : float_result x = some r) :
    |x| ≤ FLT_MAX ∧ r = x := by
  unfold float_result at h
  split_ifs at h with hx
  exact ⟨hx, (Option.some.inj h).symm⟩

theorem float_mul_eq_some (a b : Option ℚ) (r : ℚ) (h : float_mul a b = some r) :
    ∃ x y, a = some x ∧ b = some y ∧ |x * y| ≤ FLT_MAX ∧ r = x * y := by
  cases a with
  | none => simp [float_mul] at h
  | some x =>
    cases b with
    | none => simp [float_mul] at h
    | some y =>
      have := float_result_eq_some (x * y) r (by simpa [float_mul] using h)
      exact ⟨x, y, rfl, rfl, this.1, this.2⟩

theorem float_add_eq_some (a b : Option ℚ) (r : ℚ) (h : float_add a b = some r) :
    ∃ x y, a = some x ∧ b = some y ∧ |x + y| ≤ FLT_MAX ∧ r = x + y := by
  cases a with
  | none => simp [float_add] at h
  | some x =>
    cases b with
    | none => simp [float_add] at h
    | some y =>
      have := float_result_eq_some (x + y) r (by simpa [float_add] using h)
      exact ⟨x, y, rfl, rfl, this.1, this.2⟩

theorem float_chain_some (old f g e dt : ℚ) (h : no_overflow old f g e dt) :
    float_add (float_result old)
        (float_mul (float_mul (float_mul (float_result f) (float_result g)) (float_result e))
          (float_result dt))
      = some (old + f * g * e * dt) := by
  obtain ⟨⟨ho, hf, hg, he, hd⟩, h1, h2, h3, h4⟩ := h
  simp [float_add, float_mul, float_result, ho, hf, hg, he, hd, h1, h2, h3, h4]

theorem float_chain_value (old f g e dt r : ℚ)
    (h : float_add (float_result old)
      (float_mul (float_mul (float_mul (float_result f) (float_result g)) (float_result e))
        (float_result dt)) = some r) :
    r = old + f * g * e * dt ∧ no_overflow old f g e dt := by
  obtain ⟨x, y, hx, hy, hxy, hr⟩ := float_add_eq_some _ _ _ h
  obtain ⟨ho, rfl⟩ := float_result_eq_some _ _ hx
  obtain ⟨p3, d, hp3, hd, h3, rfl⟩ := float_mul_eq_some _ _ _ hy
  obtain ⟨hdt, rfl⟩ := float_result_eq_some _ _ hd
  obtain ⟨p2, e2, hp2, he2, h2, rfl⟩ := float_mul_eq_some _ _ _ hp3
  obtain ⟨he, rfl⟩ := float_result_eq_some _ _ he2
  obtain ⟨f2, g2, hf2, hg2, h1, rfl⟩ := float_mul_eq_some _ _ _ hp2
  obtain ⟨hf, rfl⟩ := float_result_eq_some _ _ hf2
  obtain ⟨hg, rfl⟩ := float_result_eq_some _ _ hg2
  exact ⟨hr, ⟨ho, hf, hg, he, hdt⟩, h1, h2, h3, hxy⟩

theorem float_chain_none (old f g e dt : ℚ) (h : ¬ no_overflow old f g e dt) :
    float_add (float_result old)
        (float_mul (float_mul (float_mul (float_result f) (float_result g)) (float_result e))
          (float_result dt))
      = none := by
  cases hc : float_add (float_result old)
      (float_mul (float_mul (float_mul (float_result f) (float_result g)) (float_result e))
        (float_result dt)) with
  | none => rfl
  | some r => exact absurd (float_chain_value _ _ _ _ _ _ hc).2 h

/-- Either the old value is kept or a value constrained to the limit is committed. -/
theorem next_integral_cases (s : RateControl) (e : Vector3f) (dt : ℚ) (i : Fin 3) :
    (rate_i s e dt i = none ∧ next_integral s e dt i = s._rate_int i) ∨
    (∃ r, rate_i s e dt i = some r ∧
      next_integral s e dt i = math.constrain r (-(s._lim_int i)) (s._lim_int i)) := by
  unfold next_integral
  cases h : rate_i s e dt i with
  | none => left; simp [PX4_ISFINITE]
  | some r => right; exact ⟨r, rfl, by simp [PX4_ISFINITE, float_value]⟩

theorem next_integral_abs_le (s : RateControl) (e : Vector3f) (dt : ℚ) (i : Fin 3)
    (hl : 0 ≤ s._lim_int i) (h0 : |s._rate_int i| ≤ s._lim_int i) :
    |next_integral s e dt i| ≤ s._lim_int i := by
  rcases next_integral_cases s e dt i with ⟨-, h⟩ | ⟨r, -, h⟩
  · rw [h]; exact h0
  · rw [h]; exact constrain_abs_le _ _ hl

/-- With a clamped error of zero the integral of the axis keeps its value. -/
theorem next_integral_zero_error (s : RateControl) (e : Vector3f) (dt : ℚ) (i : Fin 3)
    (hce : clamped_error s e i = 0) (h0 : |s._rate_int i| ≤ s._lim_int i) :
    next_integral s e dt i = s._rate_int i := by
  rcases next_integral_cases s e dt i with ⟨-, h⟩ | ⟨r, hr, h⟩
  · exact h
  · rw [h]
    unfold rate_i at hr
    have := (float_chain_value _ _ _ _ _ _ hr).1
    simp only [hce, mul_zero, zero_mul, add_zero] at this
    rw [this]
    exact constrain_self _ _ h0

/-- The integral of an axis without saturation flag after a not-landed update: the
constrained sum when no operation overflows, the old value otherwise. -/
theorem update_rate_int_no_flags (t : RateControl) (rc : rc_channels_s) (now : Nat)
    (rate rate_sp angular_accel : Vector3f) (dt : ℚ) (i : Fin 3)
    (htp : t._control_allocator_saturation_positive i = false)
    (htn : t._control_allocator_saturation_negative i = false) :
    (no_overflow (t._rate_int i)
        (math.max 0 (1 - ((rate_sp i - rate i) / math.radians 400) ^ 2))
        (if rc.channels 4 > -1 then t._mfc_gain_i i else t._gain_i i) (rate_sp i - rate i) dt →
      (update t rc now rate rate_sp angular_accel dt false).1._rate_int i =
        math.constrain
          (t._rate_int i +
            math.max 0 (1 - ((rate_sp i - rate i) / math.radians 400) ^ 2) *
              (if rc.channels 4 > -1 then t._mfc_gain_i i else t._gain_i i) *
              (rate_sp i - rate i) * dt)
          (-(t._lim_int i)) (t._lim_int i)) ∧
    (¬ no_overflow (t._rate_int i)
        (math.max 0 (1 - ((rate_sp i - rate i) / math.radians 400) ^ 2))
        (if rc.channels 4 > -1 then t._mfc_gain_i i else t._gain_i i) (rate_sp i - rate i) dt →
      (update t rc now rate rate_sp angular_accel dt false).1._rate_int i = t._rate_int i) := by
  rw [update_rate_int]
  simp only [Bool.false_eq_true, if_false]
  have hce := clamped_error_none { t with _rc_channel_values := rc } (rate_sp - rate) i htp htn
  have hri : rate_i { t with _rc_channel_values := rc } (rate_sp - rate) dt i =
      float_add (float_result (t._rate_int i))
        (float_mul (float_mul (float_mul
          (float_result (math.max 0 (1 - ((rate_sp i - rate i) / math.radians 400) ^ 2)))
          (float_result (if rc.channels 4 > -1 then t._mfc_gain_i i else t._gain_i i)))
          (float_result (rate_sp i - rate i))) (float_result dt)) := by
    unfold rate_i
    rw [hce]
    unfold selected_gain_i
    simp only [Pi.sub_apply, pow_two]
    split_ifs <;> rfl
  unfold next_integral
  rw [hri]
  constructor
  · intro h
    rw [float_chain_some _ _ _ _ _ h]
    simp [PX4_ISFINITE, float_value]
  · intro h
    rw [float_chain_none _ _ _ _ _ h]
    simp [PX4_ISFINITE]

theorem call_preserves (s : RateControl) (hlim : ∀ i, 0 ≤ s._lim_int i)
    (h0 : ∀ i, |s._rate_int i| ≤ s._lim_int i) (c : Call) :
    (call s c)._lim_int = s._lim_int ∧ ∀ i, |(call s c)._rate_int i| ≤ s._lim_int i := by
  cases c with
  | setPidGains P I D => exact ⟨rfl, h0⟩
  | setSaturationStatus p n => exact ⟨rfl, h0⟩
  | setPositiveSaturationFlag axis b =>
    by_cases h : axis < 3
    · simpa [call, setPositiveSaturationFlag, h] using h0
    · simpa [call, setPositiveSaturationFlag, h] using h0
  | setNegativeSaturationFlag axis b =>
    by_cases h : axis < 3
    · simpa [call, setNegativeSaturationFlag, h] using h0
    · simpa [call, setNegativeSaturationFlag, h] using h0
  | setMFCGains P I D a b l n => exact ⟨rfl, h0⟩
  | update rc now rate rate_sp angular_accel dt landed =>
    refine ⟨(update_config s rc now rate rate_sp angular_accel dt landed).1, fun i => ?_⟩
    show |(update s rc now rate rate_sp angular_accel dt landed).1._rate_int i| ≤ s._lim_int i
    rw [update_rate_int]
    cases landed
    · exact next_integral_abs_le { s with _rc_channel_values := rc } _ _ i (hlim i) (h0 i)
    · exact h0 i

/-! ## Lemmas on the quadrature -/

theorem foldl_add_range (h : Nat → ℚ) (c : ℚ) (m : Nat) :
    List.foldl (fun total k => total + h k * c) 0 (List.range m) =
      (∑ k ∈ Finset.range m, h k) * c := by
  induction m with
  | zero => simp
  | succ m ih =>
    rw [List.range_succ, List.foldl_append, ih, Finset.sum_range_succ]
    simp [add_mul]

theorem foldl_writes (f g : Nat → ℚ) (A B : Nat → ℚ) (m : Nat) :
    (∀ j, (List.foldl (fun (T : (Nat → ℚ) × (Nat → ℚ)) i =>
        (Function.update T.1 (i + 1) (f i), Function.update T.2 i (g i))) (A, B)
        (List.range m)).1 (j + 1) = if j < m then f j else A (j + 1)) ∧
    (∀ j, (List.foldl (fun (T : (Nat → ℚ) × (Nat → ℚ)) i =>
        (Function.update T.1 (i + 1) (f i), Function.update T.2 i (g i))) (A, B)
        (List.range m)).2 j = if j < m then g j else B j) := by
  induction m with
  | zero => simp
  | succ m ih =>
    rw [List.range_succ, List.foldl_append]
    simp only [List.foldl_cons, List.foldl_nil]
    constructor
    · intro j
      by_cases hj : j = m
      · subst hj; simp
      · rw [Function.update_noteq (by omega), ih.1 j]
        by_cases hlt : j < m
        · simp [hlt, Nat.lt_succ_of_lt hlt]
        · have : ¬ j < m + 1 := by omega
          simp [hlt, this]
    · intro j
      by_cases hj : j = m
      · subst hj; simp
      · rw [Function.update_noteq hj, ih.2 j]
        by_cases hlt : j < m
        · simp [hlt, Nat.lt_succ_of_lt hlt]
        · have : ¬ j < m + 1 := by omega
          simp [hlt, this]

theorem sum_range_pairs (h : Nat → ℚ) (P : Nat) :
    ∑ i ∈ Finset.range (2 * P), h i = ∑ k ∈ Finset.range P, (h (2 * k) + h (2 * k + 1)) := by
  induction P with
  | zero => simp
  | succ P ih =>
    rw [show 2 * (P + 1) = 2 * P + 1 + 1 by ring, Finset.sum_range_succ, Finset.sum_range_succ, ih,
      Finset.sum_range_succ]
    ring

theorem simpson_pairing (F : Nat → ℚ) (q : Nat) :
    ∑ i ∈ Finset.range (2 * q + 4), simpson_weight (2 * q + 4) i * F i =
      F 0 + F (2 * q + 3) + ∑ k ∈ Finset.range (q + 1), (4 * F (2 * k + 1) + 2 * F (2 * k + 2)) := by
  rw [show 2 * q + 4 = 2 * (q + 2) by ring, sum_range_pairs, Finset.sum_add_distrib,
    Finset.sum_range_succ' (fun k => simpson_weight (2 * (q + 2)) (2 * k) * F (2 * k)),
    Finset.sum_range_succ (fun k => simpson_weight (2 * (q + 2)) (2 * k + 1) * F (2 * k + 1)),
    Finset.sum_add_distrib]
  have h1 : ∑ k ∈ Finset.range (q + 1), simpson_weight (2 * (q + 2)) (2 * (k + 1)) * F (2 * (k + 1))
      = ∑ k ∈ Finset.range (q + 1), 2 * F (2 * k + 2) := by
    apply Finset.sum_congr rfl
    intro k hk
    have hk' : k < q + 1 := Finset.mem_range.mp hk
    have ha : ¬ (2 * (k + 1) = 0 ∨ 2 * (k + 1) = 2 * (q + 2) - 1) := by omega
    have hb : ¬ (2 * (k + 1) % 2 = 1) := by omega
    rw [simpson_weight, if_neg ha, if_neg hb]
    rfl
  have h2 : ∑ k ∈ Finset.range (q + 1), simpson_weight (2 * (q + 2)) (2 * k + 1) * F (2 * k + 1)
      = ∑ k ∈ Finset.range (q + 1), 4 * F (2 * k + 1) := by
    apply Finset.sum_congr rfl
    intro k hk
    have hk' : k < q + 1 := Finset.mem_range.mp hk
    have ha : ¬ (2 * k + 1 = 0 ∨ 2 * k + 1 = 2 * (q + 2) - 1) := by omega
    have hb : (2 * k + 1) % 2 = 1 := by omega
    rw [simpson_weight, if_neg ha, if_pos hb]
  have h3 : simpson_weight (2 * (q + 2)) (2 * 0) = 1 := by simp [simpson_weight]
  have h4 : simpson_weight (2 * (q + 2)) (2 * (q + 1) + 1) = 1 := by
    have : 2 * (q + 1) + 1 = 2 * (q + 2) - 1 := by omega
    simp [simpson_weight, this]
  rw [h1, h2, h3, h4]
  have h5 : 2 * (q + 1) + 1 = 2 * q + 3 := by ring
  rw [h5]
  simp only [Nat.mul_zero, one_mul]
  ring


theorem quadrature_fold (F : Nat → ℚ) (c last : ℚ) (q : Nat) :
    List.foldl
        (fun total k =>
          total +
            (Function.update
                  (Function.update
                    (List.foldl
                        (fun (T : (Nat → ℚ) × (Nat → ℚ)) i =>
                          (Function.update T.1 (i + 1) (4 * F (2 * i + 1)),
                            Function.update T.2 i (2 * F (2 * i))))
                        (fun _ => 0, fun _ => 0) (List.range (q + 2 + 1))).1
                    0 0)
                  (q + 2) (4 * F 1) k +
                Function.update
                  (Function.update
                    (List.foldl
                        (fun (T : (Nat → ℚ) × (Nat → ℚ)) i =>
                          (Function.update T.1 (i + 1) (4 * F (2 * i + 1)),
                            Function.update T.2 i (2 * F (2 * i))))
                        (fun _ => 0, fun _ => 0) (List.range (q + 2 + 1))).2
                    0 (F 0))
                  (q + 2) last k) *
              c)
        0 (List.range (q + 2 + 1)) =
      c * (F 0 + last + ∑ k ∈ Finset.range (q + 1), (4 * F (2 * k + 1) + 2 * F (2 * k + 2))
        + 4 * F 1) := by
  obtain ⟨hE, hO⟩ := foldl_writes (fun i => 4 * F (2 * i + 1)) (fun i => 2 * F (2 * i))
    (fun _ => 0) (fun _ => 0) (q + 2 + 1)
  rw [foldl_add_range, Finset.sum_range_succ, Finset.sum_range_succ']
  have hmid : ∀ k ∈ Finset.range (q + 1),
      (Function.update
            (Function.update
              (List.foldl
                  (fun (T : (Nat → ℚ) × (Nat → ℚ)) i =>
                    (Function.update T.1 (i + 1) (4 * F (2 * i + 1)),
                      Function.update T.2 i (2 * F (2 * i))))
                  (fun _ => 0, fun _ => 0) (List.range (q + 2 + 1))).1
              0 0)
            (q + 2) (4 * F 1) (k + 1) +
          Function.update
            (Function.update
              (List.foldl
                  (fun (T : (Nat → ℚ) × (Nat → ℚ)) i =>
                    (Function.update T.1 (i + 1) (4 * F (2 * i + 1)),
                      Function.update T.2 i (2 * F (2 * i))))
                  (fun _ => 0, fun _ => 0) (List.range (q + 2 + 1))).2
              0 (F 0))
            (q + 2) last (k + 1)) = 4 * F (2 * k + 1) + 2 * F (2 * k + 2) := by
    intro k hk
    have hk' : k < q + 1 := Finset.mem_range.mp hk
    rw [Function.update_noteq (by omega), Function.update_noteq (by omega),
      Function.update_noteq (by omega), Function.update_noteq (by omega), hE k, hO (k + 1),
      if_pos (by omega), if_pos (by omega)]
    rfl
  have h0 : (0 : Nat) ≠ q + 2 := by omega
  rw [Finset.sum_congr rfl hmid]
  simp only [Function.update_same, Function.update_noteq h0]
  ring

theorem F_hat_F_sum (s : RateControl) (y z : Bool) (m u : Nat → ℚ) (q : Nat)
    (hn : s._mfc_n = 2 * q + 4) :
    (F_hat_F s y z m u).2 =
      (s._time_steps (s._mfc_n - 1) / 3) *
        (F_hat { s with _mfc_dt := s._time_steps (s._mfc_n - 1) } (s._time_steps 0) y z (m 0) (u 0)
          + F_hat { s with _mfc_dt := s._time_steps (s._mfc_n - 1) } (s._time_steps (s._mfc_n - 1))
              y z (m (s._mfc_n - 1)) (u (s._mfc_n - 1))
          + ∑ k ∈ Finset.range (q + 1),
              (4 * F_hat { s with _mfc_dt := s._time_steps (s._mfc_n - 1) }
                    (s._time_steps (2 * k + 1)) y z (m (2 * k + 1)) (u (2 * k + 1))
                + 2 * F_hat { s with _mfc_dt := s._time_steps (s._mfc_n - 1) }
                    (s._time_steps (2 * k + 2)) y z (m (2 * k + 2)) (u (2 * k + 2)))
          + 4 * F_hat { s with _mfc_dt := s._time_steps (s._mfc_n - 1) } (s._time_steps 1) y z (m 1)
              (u 1)) := by
  have hn2 : s._mfc_n / 2 = q + 2 := by omega
  have h := quadrature_fold
    (fun i => F_hat { s with _mfc_dt := s._time_steps (s._mfc_n - 1) } (s._time_steps i) y z (m i)
      (u i)) (s._time_steps (s._mfc_n - 1) / 3)
    (F_hat { s with _mfc_dt := s._time_steps (s._mfc_n - 1) } (s._time_steps (s._mfc_n - 1))
              y z (m (s._mfc_n - 1)) (u (s._mfc_n - 1))) q
  unfold F_hat_F
  dsimp only
  rw [hn2]
  exact h


/-! ## Lemmas on the sliding windows -/

theorem foldl_shift (b : Nat → ℚ) (k : Nat) (j : Nat) :
    List.foldl (fun inp i => Function.update inp (i - 1) (inp i)) b (List.range' 1 k) j =
      if j < k then b (j + 1) else b j := by
  induction k generalizing j with
  | zero => simp
  | succ k ih =>
    rw [List.range'_1_concat, List.foldl_append]
    simp only [List.foldl_cons, List.foldl_nil, Nat.add_sub_cancel_left]
    by_cases hj : j = k
    · subst hj
      rw [Function.update_same, ih]
      have h1 : ¬ (1 + j < j) := by omega
      simp [h1, Nat.add_comm]
    · rw [Function.update_noteq hj, ih]
      by_cases hlt : j < k
      · simp [hlt, Nat.lt_succ_of_lt hlt]
      · have h2 : ¬ j < k + 1 := by omega
        simp [hlt, h2]

theorem pop_apply (s : RateControl) (b : Nat → ℚ) (j : Nat) :
    pop s b j = if j + 1 < s._mfc_n then b (j + 1) else b j := by
  unfold pop
  rw [foldl_shift]
  by_cases h : j < s._mfc_n - 1
  · have h' : j + 1 < s._mfc_n := by omega
    simp [h, h']
  · have h' : ¬ j + 1 < s._mfc_n := by omega
    simp [h, h']

theorem foldl_rebase (inp : Nat → ℚ) (k : Nat) (j : Nat) :
    List.foldl (fun inp i => Function.update inp i (inp (i + 1) - inp i + inp (i - 1))) inp
        (List.range' 1 k) j =
      if 1 ≤ j ∧ j ≤ k then inp (j + 1) - inp 1 + inp 0 else inp j := by
  induction k generalizing j with
  | zero =>
    have h : ¬ (1 ≤ j ∧ j ≤ 0) := by omega
    rw [if_neg h]
    rfl
  | succ k ih =>
    rw [List.range'_1_concat, List.foldl_append]
    simp only [List.foldl_cons, List.foldl_nil, Nat.add_sub_cancel_left]
    by_cases hj : j = 1 + k
    · subst hj
      rw [Function.update_same, ih, ih, ih]
      have h1 : ¬ (1 ≤ 1 + k + 1 ∧ 1 + k + 1 ≤ k) := by omega
      have h2 : ¬ (1 ≤ 1 + k ∧ 1 + k ≤ k) := by omega
      have h3 : (1 ≤ 1 + k ∧ 1 + k ≤ k + 1) := by omega
      rw [if_neg h1, if_neg h2, if_pos h3]
      by_cases hk : 1 ≤ k
      · have h4 : 1 ≤ k ∧ k ≤ k := ⟨hk, le_refl k⟩
        rw [if_pos h4, Nat.add_comm k 1]
        ring
      · have hk0 : k = 0 := by omega
        subst hk0
        simp
    · rw [Function.update_noteq hj, ih]
      by_cases hr : 1 ≤ j ∧ j ≤ k
      · have hr' : 1 ≤ j ∧ j ≤ k + 1 := by omega
        rw [if_pos hr, if_pos hr']
      · have hr' : ¬ (1 ≤ j ∧ j ≤ k + 1) := by omega
        rw [if_neg hr, if_neg hr']

theorem push_pop_time_apply (s : RateControl) (t : Nat → ℚ) (dt : ℚ) (h : 2 ≤ s._mfc_n)
    (j : Nat) :
    push_pop_time s t dt j =
      if j + 2 ≤ s._mfc_n then t (j + 1) - t 0
      else if j = s._mfc_n - 1 then t (s._mfc_n - 1) - t 0 + dt
      else t j := by
  unfold push_pop_time
  by_cases hj : j = s._mfc_n - 1
  · subst hj
    rw [Function.update_same, foldl_rebase]
    have h1 : ¬ (s._mfc_n - 1 + 2 ≤ s._mfc_n) := by omega
    rw [if_neg h1, if_pos rfl]
    by_cases h2 : 1 ≤ s._mfc_n - 2 ∧ s._mfc_n - 2 ≤ s._mfc_n - 1 - 1
    · rw [if_pos h2]
      have h3 : s._mfc_n - 2 + 1 = s._mfc_n - 1 := by omega
      have h4 : (1 : Nat) ≠ 0 := by omega
      have h5 : s._mfc_n - 1 ≠ 0 := by omega
      rw [h3, Function.update_noteq h5, Function.update_noteq h4, Function.update_same]
      ring
    · rw [if_neg h2]
      have h3 : s._mfc_n - 2 = 0 := by omega
      have h4 : s._mfc_n - 1 = 1 := by omega
      rw [h3, h4, Function.update_same]
  · rw [Function.update_noteq hj, foldl_rebase]
    by_cases h1 : j + 2 ≤ s._mfc_n
    · rw [if_pos h1]
      by_cases h2 : 1 ≤ j ∧ j ≤ s._mfc_n - 1 - 1
      · have h4 : (1 : Nat) ≠ 0 := by omega
        have h5 : j + 1 ≠ 0 := by omega
        rw [if_pos h2, Function.update_noteq h5, Function.update_noteq h4, Function.update_same]
        ring
      · have h3 : j = 0 := by omega
        subst h3
        rw [if_neg h2, Function.update_same]
    · have h2 : ¬ (1 ≤ j ∧ j ≤ s._mfc_n - 1 - 1) := by omega
      have h3 : j ≠ 0 := by omega
      rw [if_neg h1, if_neg hj, if_neg h2, Function.update_noteq h3]

/-! ## Lemmas for the window, cache and diagnostics claims -/

/-- The factor of the closed form `rate_i` is `i_factor` without rounding. -/
theorem rate_i_i_factor (s : RateControl) (rate_error : Vector3f) (dt : ℚ) (i : Fin 3) :
    rate_i s rate_error dt i =
      float_add (float_result (s._rate_int i))
        (float_mul (float_mul (float_mul
          (float_result (i_factor id (math.radians 400) (clamped_error s rate_error i)))
          (float_result (selected_gain_i s i))) (float_result (clamped_error s rate_error i)))
          (float_result dt)) := rfl

theorem update_mfc_n (s : RateControl) (rc : rc_channels_s) (now : Nat)
    (rate rate_sp angular_accel : Vector3f) (dt : ℚ) (landed : Bool) :
    (update s rc now rate rate_sp angular_accel dt landed).1._mfc_n = s._mfc_n := by
  unfold update
  by_cases hc : rc.channels 4 > -1 <;> cases landed <;>
    simp [hc, update_mfc, update_mfc_command, update_mfc_shift, F_hat_F, updateIntegral_eq,
      publish]

theorem update_mfc_windows (s : RateControl) (now : Nat) (rate rate_sp angular_accel : Vector3f)
    (dt : ℚ) (landed : Bool) :
    (update_mfc s now rate rate_sp angular_accel dt landed).1._roll_last_u =
        push s (pop s s._roll_last_u) (s._last_u 0) ∧
    (update_mfc s now rate rate_sp angular_accel dt landed).1._pitch_last_u =
        push s (pop s s._pitch_last_u) (s._last_u 1) ∧
    (update_mfc s now rate rate_sp angular_accel dt landed).1._roll_sp_values =
        push s (pop s s._roll_sp_values) (rate_sp 0) ∧
    (update_mfc s now rate rate_sp angular_accel dt landed).1._pitch_sp_values =
        push s (pop s s._pitch_sp_values) (rate_sp 1) ∧
    (update_mfc s now rate rate_sp angular_accel dt landed).1._roll_rate_values =
        push s (pop s s._roll_rate_values) (rate 0) ∧
    (update_mfc s now rate rate_sp angular_accel dt landed).1._pitch_rate_values =
        push s (pop s s._pitch_rate_values) (rate 1) ∧
    (update_mfc s now rate rate_sp angular_accel dt landed).1._time_steps =
        push_pop_time s s._time_steps dt ∧
    (update_mfc s now rate rate_sp angular_accel dt landed).1._mfc_n = s._mfc_n := by
  cases landed <;>
    simp [update_mfc, update_mfc_command, update_mfc_shift, F_hat_F, updateIntegral_eq, publish,
      push, pop, push_pop_time]

theorem push_pop_apply (s : RateControl) (b : Nat → ℚ) (v : ℚ) (h : 2 ≤ s._mfc_n) :
    (∀ i, i + 2 ≤ s._mfc_n → push s (pop s b) v i = b (i + 1)) ∧
    push s (pop s b) v (s._mfc_n - 1) = v := by
  constructor
  · intro i hi
    have h1 : i ≠ s._mfc_n - 1 := by omega
    have h2 : i + 1 < s._mfc_n := by omega
    rw [push, Function.update_noteq h1, pop_apply, if_pos h2]
  · rw [push, Function.update_same]


theorem update_eq_update_mfc (s : RateControl) (rc : rc_channels_s) (now : Nat)
    (rate rate_sp angular_accel : Vector3f) (dt : ℚ) (landed : Bool) (h : rc.channels 4 > -1) :
    update s rc now rate rate_sp angular_accel dt landed =
      update_mfc { s with _rc_channel_values := rc } now rate rate_sp angular_accel dt landed := by
  simp [update, h]

theorem radians_400 : math.radians 400 = 2 * math.radians 200 := by
  unfold math.radians; ring

theorem radians_200_pos : 0 < math.radians 200 := by
  norm_num [math.radians, math.M_PI_F]

/-- The factor is at least 3/4 for every clamped error of magnitude up to half the
reference, under any monotone rounding that fixes 1/4, 1/2, -1/2 and 3/4. -/
theorem i_factor_ge (fl : ℚ → ℚ) (hmono : Monotone fl) (h12 : fl (1 / 2) = 1 / 2)
    (hm12 : fl (-(1 / 2)) = -(1 / 2)) (h14 : fl (1 / 4) = 1 / 4) (h34 : fl (3 / 4) = 3 / 4)
    (ref e : ℚ) (href : 0 < ref) (h : |e| ≤ ref / 2) : i_factor fl ref e ≥ 3 / 4 := by
  have hb := abs_le.mp h
  have hq1 : e / ref ≤ 1 / 2 := by
    rw [div_le_iff₀ href]; linarith [hb.2]
  have hq2 : -(1 / 2) ≤ e / ref := by
    rw [le_div_iff₀ href]; linarith [hb.1]
  have hx1 : fl (e / ref) ≤ 1 / 2 := h12 ▸ hmono hq1
  have hx2 : -(1 / 2) ≤ fl (e / ref) := hm12 ▸ hmono hq2
  have hsq : fl (e / ref) * fl (e / ref) ≤ 1 / 4 := by nlinarith
  have hy : fl (fl (e / ref) * fl (e / ref)) ≤ 1 / 4 := h14 ▸ hmono hsq
  have hz : 3 / 4 ≤ fl (1 - fl (fl (e / ref) * fl (e / ref))) := by
    have : (3 : ℚ) / 4 ≤ 1 - fl (fl (e / ref) * fl (e / ref)) := by linarith
    exact h34 ▸ hmono this
  unfold i_factor math.max
  simp only
  split_ifs with hc
  · linarith
  · exact hz

theorem foldlM_last_none {α : Type} (f : α → Nat → Option α) (a : α) (p : Nat)
    (h : ∀ x, f x p = none) : List.foldlM f a (List.range (p + 1)) = none := by
  rw [List.range_succ, List.foldlM_append]
  cases List.foldlM f a (List.range p) with
  | none => rfl
  | some x => simp [h]

theorem load_none (buf : List ℚ) (i : Nat) (h : buf.length ≤ i) : load buf i = none := by
  simp [load, h]

theorem F_hat_at_none (s : RateControl) (y z : Bool) (t m u : List ℚ) (i : Nat)
    (h : t.length ≤ i) : F_hat_at s y z t m u i = none := by
  simp [F_hat_at, load_none t i h]

theorem F_hat_F_checked_padded :
    F_hat_F_checked quad false true [0, 1, 2, 3, 0, 0] [0, 1, 0, 0, 0, 0] [0, 0, 0, 0, 0, 0] =
      some (-160 / 27) := by
  norm_num [F_hat_F_checked, F_hat_F_loop, F_hat_at, load, store, F_hat, quad, idle,
    List.range_succ, List.foldlM, List.replicate]

/-! ## Facts about the concrete scenarios -/

theorem scenario_after_mfc_rate_int : scenario_after_mfc._rate_int 0 ≠ 0 := by
  unfold scenario_after_mfc
  rw [(update_rate_int_no_flags scenario rc_mfc 0 0 ![1, 0, 0] 0 (1 / 250) 0
    (by simp [scenario, setMFCGains, setPidGains, idle])
    (by simp [scenario, setMFCGains, setPidGains, idle])).1
    (by norm_num [no_overflow, FLT_MAX, scenario, setMFCGains, setPidGains, idle, rc_mfc,
      math.max, math.radians, math.M_PI_F, abs_le])]
  norm_num [scenario, setMFCGains, setPidGains, idle, rc_mfc, math.max, math.constrain,
    math.radians, math.M_PI_F]

theorem scenario_after_mfc_torque :
    (update scenario rc_mfc 0 0 ![1, 0, 0] 0 (1 / 250) false).2 0 =
      1 + scenario_after_mfc._rate_int 0 := by
  have hm : rc_mfc.channels 4 > -1 := by simp [rc_mfc]
  have h := (update_mfc_torque scenario rc_mfc 0 0 ![1, 0, 0] 0 (1 / 250) hm).1
  rw [h]
  unfold scenario_after_mfc
  rw [update_rate_int, updateIntegral_eq]
  simp [scenario, setMFCGains, setPidGains, idle]

end RateControl

/-! ## The claims -/

namespace RateControl

/-- C1: under the PID law (mode-select channel not greater than -1.0) `update`
returns on every axis `P*(rate_sp - rate) + integral - D*angular_accel + FF*rate_sp`,
with the integral state held at entry to the call. -/
theorem C1_pid_law (s : RateControl) (rc : rc_channels_s) (now : Nat)
    (rate rate_sp angular_accel : Vector3f) (dt : ℚ) (landed : Bool)
    (h : ¬ rc.channels 4 > -1) (i : Fin 3) :
    (update s rc now rate rate_sp angular_accel dt landed).2 i =
      s._gain_p i * (rate_sp i - rate i) + s._rate_int i - s._gain_d i * angular_accel i
        + s._gain_ff i * rate_sp i := by
  simp [update, h, emult]

/-- C1 at a concrete input: the scenario controller after an MFC tick (non-zero
integral), PID law selected, roll axis. -/
theorem C1_pid_law_witness :
    ¬ rc_pid.channels 4 > -1 ∧
    (update scenario_after_mfc rc_pid 0 ![0, 0, 1] ![1, 0, 0] ![0, 1, 0] (1 / 250) false).2 0 =
      scenario_after_mfc._gain_p 0 * ((![1, 0, 0] : Vector3f) 0 - (![0, 0, 1] : Vector3f) 0)
        + scenario_after_mfc._rate_int 0
        - scenario_after_mfc._gain_d 0 * (![0, 1, 0] : Vector3f) 0
        + scenario_after_mfc._gain_ff 0 * (![1, 0, 0] : Vector3f) 0 :=
  ⟨by simp [rc_pid],
    C1_pid_law scenario_after_mfc rc_pid 0 ![0, 0, 1] ![1, 0, 0] ![0, 1, 0] (1 / 250) false
      (by simp [rc_pid]) 0⟩

/-- C2 as stated fails: the scenario controller (PID gains I = D = 0 throughout) that
has run one not-landed MFC tick holds a non-zero integral, and the next PID-law tick
returns on roll a torque different from `P*rate_error + FF*setpoint`. -/
theorem C2_counterexample :
    scenario_after_mfc._gain_i = 0 ∧ scenario_after_mfc._gain_d = 0 ∧
    ¬ rc_pid.channels 4 > -1 ∧
    (update scenario_after_mfc rc_pid 0 0 ![1, 0, 0] 0 (1 / 250) false).2 0 ≠
      scenario_after_mfc._gain_p 0 * ((![1, 0, 0] : Vector3f) 0 - (0 : Vector3f) 0)
        + scenario_after_mfc._gain_ff 0 * (![1, 0, 0] : Vector3f) 0 := by
  have hi := scenario_after_mfc_rate_int
  have hc := update_config scenario rc_mfc 0 0 ![1, 0, 0] 0 (1 / 250) false
  have hpid : ¬ rc_pid.channels 4 > -1 := by simp [rc_pid]
  have hd : scenario_after_mfc._gain_d = 0 := by
    unfold scenario_after_mfc; rw [hc.2.2.2.1]; simp [scenario, setMFCGains, setPidGains]
  refine ⟨?_, hd, hpid, ?_⟩
  · unfold scenario_after_mfc; rw [hc.2.2.1]; simp [scenario, setMFCGains, setPidGains]
  · simp [update, hpid, emult, hd]
    exact hi

/-- C2, amended: under the PID law with I = 0 and D = 0 on an axis whose integral
limit is non-negative, a call entered with a zero integral state on that axis returns
exactly `P*rate_error + FF*setpoint` there and leaves that integral at zero. -/
theorem C2_pid_zero_integral (s : RateControl) (rc : rc_channels_s) (now : Nat)
    (rate rate_sp angular_accel : Vector3f) (dt : ℚ) (landed : Bool)
    (h : ¬ rc.channels 4 > -1) (i : Fin 3) (hI : s._gain_i i = 0) (hD : s._gain_d i = 0)
    (hl : 0 ≤ s._lim_int i) (h0 : s._rate_int i = 0) :
    (update s rc now rate rate_sp angular_accel dt landed).2 i =
      s._gain_p i * (rate_sp i - rate i) + s._gain_ff i * rate_sp i ∧
    (update s rc now rate rate_sp angular_accel dt landed).1._rate_int i = 0 := by
  constructor
  · simp [update, h, emult, hD, h0]
  · rw [update_rate_int]
    cases landed
    · simp only [Bool.false_eq_true, if_false]
      rcases next_integral_cases { s with _rc_channel_values := rc } (rate_sp - rate) dt i with
        ⟨-, hk⟩ | ⟨r, hr, hk⟩
      · rw [hk]; exact h0
      · rw [hk]
        unfold rate_i at hr
        have hv := (float_chain_value _ _ _ _ _ _ hr).1
        have hsel : selected_gain_i { s with _rc_channel_values := rc } i = 0 := by
          simp [selected_gain_i, h, hI]
        rw [hsel] at hv
        simp only [mul_zero, zero_mul, add_zero] at hv
        rw [hv]
        have hb : |s._rate_int i| ≤ s._lim_int i := by rw [h0]; simpa using hl
        exact (constrain_self (s._rate_int i) (s._lim_int i) hb).trans h0
    · simp [h0]

/-- C2 at the scenario of the specification: P = [1,1,1], I = D = FF = 0, rate = 0,
setpoint = [1,0,0], accel = 0, dt = 0.004, not landed, gives torque [1,0,0]. -/
theorem C2_pid_zero_integral_witness :
    (update scenario rc_pid 0 0 ![1, 0, 0] 0 (1 / 250) false).2 = ![1, 0, 0] := by
  have hpid : ¬ rc_pid.channels 4 > -1 := by simp [rc_pid]
  funext i
  rw [(C2_pid_zero_integral scenario rc_pid 0 0 ![1, 0, 0] 0 (1 / 250) false hpid i
    (by simp [scenario, setMFCGains, setPidGains])
    (by simp [scenario, setMFCGains, setPidGains])
    (by fin_cases i <;> simp [scenario, setMFCGains, setPidGains, idle])
    (by simp [scenario, setMFCGains, setPidGains, idle])).1]
  fin_cases i <;> simp [scenario, setMFCGains, setPidGains, idle]

/-- C3 as stated fails: after a not-landed MFC tick with setpoint [1,0,0], a landed
MFC tick with setpoint [2,0,0] returns on roll a torque that differs from the torque
returned by the previous call, which is also the cached last output. -/
theorem C3_counterexample :
    rc_mfc.channels 4 > -1 ∧
    (update scenario_after_mfc rc_mfc 1 0 ![2, 0, 0] 0 (1 / 250) true).2 0 ≠
      (update scenario rc_mfc 0 0 ![1, 0, 0] 0 (1 / 250) false).2 0 ∧
    (update scenario_after_mfc rc_mfc 1 0 ![2, 0, 0] 0 (1 / 250) true).2 0 ≠
      scenario_after_mfc._last_u 0 := by
  have hm : rc_mfc.channels 4 > -1 := by simp [rc_mfc]
  have hc := update_config scenario rc_mfc 0 0 ![1, 0, 0] 0 (1 / 250) false
  have h2 : (update scenario_after_mfc rc_mfc 1 0 ![2, 0, 0] 0 (1 / 250) true).2 0 =
      2 + scenario_after_mfc._rate_int 0 := by
    have hP : scenario_after_mfc._mfc_gain_p = ![1, 1, 1] := by
      unfold scenario_after_mfc; rw [hc.2.2.2.2.2.1]; simp [scenario, setMFCGains]
    have hD : scenario_after_mfc._mfc_gain_d = 0 := by
      unfold scenario_after_mfc; rw [hc.2.2.2.2.2.2.2]; simp [scenario, setMFCGains]
    have hF : scenario_after_mfc._gain_ff = 0 := by
      unfold scenario_after_mfc; rw [hc.2.2.2.2.1]; simp [scenario, setMFCGains, setPidGains, idle]
    simp [update, hm, update_mfc, emult, hP, hD, hF]
  have hl : scenario_after_mfc._last_u 0 =
      (update scenario rc_mfc 0 0 ![1, 0, 0] 0 (1 / 250) false).2 0 := by
    unfold scenario_after_mfc; rw [update_last_u]
  refine ⟨hm, ?_, ?_⟩
  · rw [h2, scenario_after_mfc_torque]; norm_num
  · rw [hl, h2, scenario_after_mfc_torque]; norm_num

/-- C3, amended: when the MFC law is selected and landed = true, `update` returns on
every axis `P_mfc*(rate_sp - rate) + integral - D_mfc*angular_accel + FF*rate_sp`,
computed from the current rate, setpoint and angular acceleration and the integral
state at entry; it is this value that becomes the cached last output. -/
theorem C3_mfc_landed_torque (s : RateControl) (rc : rc_channels_s) (now : Nat)
    (rate rate_sp angular_accel : Vector3f) (dt : ℚ) (h : rc.channels 4 > -1) (i : Fin 3) :
    (update s rc now rate rate_sp angular_accel dt true).2 i =
        s._mfc_gain_p i * (rate_sp i - rate i) + s._rate_int i
          - s._mfc_gain_d i * angular_accel i + s._gain_ff i * rate_sp i ∧
    (update s rc now rate rate_sp angular_accel dt true).1._last_u i =
      (update s rc now rate rate_sp angular_accel dt true).2 i := by
  constructor
  · simp [update, h, update_mfc, emult]
  · rw [update_last_u]

/-- C3 (amended) at a concrete input: landed MFC tick of the scenario controller,
setpoint [2,0,0], roll axis: the returned torque is 2. -/
theorem C3_mfc_landed_torque_witness :
    rc_mfc.channels 4 > -1 ∧
    (update scenario rc_mfc 1 0 ![2, 0, 0] 0 (1 / 250) true).2 0 = 2 := by
  have hm : rc_mfc.channels 4 > -1 := by simp [rc_mfc]
  refine ⟨hm, ?_⟩
  rw [(C3_mfc_landed_torque scenario rc_mfc 1 0 ![2, 0, 0] 0 (1 / 250) hm 0).1]
  simp [scenario, setMFCGains, setPidGains, idle]

/-- C4: starting from an integral state within the non-negative per-axis limit, after
any sequence of calls (updates under either law with any inputs, landed flag and dt,
interleaved with any setter calls) the limit is unchanged and the magnitude of the
integral state on every axis is at most the limit of that axis. -/
theorem C4_integral_bound (s : RateControl) (hlim : ∀ i, 0 ≤ s._lim_int i)
    (h0 : ∀ i, |s._rate_int i| ≤ s._lim_int i) (cs : List Call) :
    (calls s cs)._lim_int = s._lim_int ∧
    ∀ i, |(calls s cs)._rate_int i| ≤ s._lim_int i := by
  induction cs generalizing s with
  | nil => exact ⟨rfl, h0⟩
  | cons c cs ih =>
    have hc := call_preserves s hlim h0 c
    have h := ih (call s c) (by rw [hc.1]; exact hlim) (by rw [hc.1]; exact hc.2)
    rw [hc.1] at h
    exact h

/-- C4 at a concrete sequence: a flag setter, an MFC tick and a PID tick with a
large yaw error and a large dt keep the yaw integral within the unit limit. -/
theorem C4_integral_bound_witness :
    |(calls scenario
      [Call.setPositiveSaturationFlag 1 true,
       Call.update rc_mfc 0 0 ![1, 0, 0] 0 (1 / 250) false,
       Call.update rc_pid 1 0 ![0, 0, 500] 0 1000 false])._rate_int 2| ≤ 1 := by
  have h := (C4_integral_bound scenario
    (by intro i; fin_cases i <;> simp [scenario, setMFCGains, setPidGains, idle])
    (by intro i; fin_cases i <;> simp [scenario, setMFCGains, setPidGains, idle])
    [Call.setPositiveSaturationFlag 1 true,
       Call.update rc_mfc 0 0 ![1, 0, 0] 0 (1 / 250) false,
       Call.update rc_pid 1 0 ![0, 0, 500] 0 1000 false]).2 2
  have hl : scenario._lim_int 2 = 1 := by
    simp [scenario, setMFCGains, setPidGains, idle]
  rw [hl] at h
  exact h

/-- C5: under either law an `update` call with landed = true leaves the integral
state of all three axes as it was; so after two consecutive landed ticks with
arbitrary (different) inputs the integral state is still the one before both. -/
theorem C5_landed_freezes_integral (s : RateControl) (rc rc2 : rc_channels_s) (now now2 : Nat)
    (rate rate_sp angular_accel rate2 rate_sp2 angular_accel2 : Vector3f) (dt dt2 : ℚ) :
    (update s rc now rate rate_sp angular_accel dt true).1._rate_int = s._rate_int ∧
    (update (update s rc now rate rate_sp angular_accel dt true).1 rc2 now2 rate2 rate_sp2
        angular_accel2 dt2 true).1._rate_int =
      (update s rc now rate rate_sp angular_accel dt true).1._rate_int := by
  simp [update_rate_int]

/-- C6 as stated fails, in two ways.  With a negative integral gain (-1), the positive
saturation flag of roll set and a roll rate error of 1, the integral of roll after
`updateIntegral` is strictly greater than the one produced with the flag cleared.
With a non-negative gain (3e38), limit 1, prior integral -5, rate error 2 and dt 1,
the call with the flag cleared overflows and keeps -5, while the call with the flag
set commits constrain(-5, -1, 1) = -1, which is greater. -/
theorem C6_counterexample :
    (windup._control_allocator_saturation_positive 0 = true ∧ (![1, 0, 0] : Vector3f) 0 > 0 ∧
      (updateIntegral
        { windup with
          _control_allocator_saturation_positive :=
            Function.update windup._control_allocator_saturation_positive 0 false }
        ![1, 0, 0] 1).1._rate_int 0 < (updateIntegral windup ![1, 0, 0] 1).1._rate_int 0) ∧
    (overflowing_low._control_allocator_saturation_positive 0 = true ∧
      (![2, 0, 0] : Vector3f) 0 > 0 ∧ 0 ≤ overflowing_low._gain_i 0 * 1 ∧
      0 ≤ overflowing_low._lim_int 0 ∧
      (updateIntegral
        { overflowing_low with
          _control_allocator_saturation_positive :=
            Function.update overflowing_low._control_allocator_saturation_positive 0 false }
        ![2, 0, 0] 1).1._rate_int 0 = -5 ∧
      (updateIntegral overflowing_low ![2, 0, 0] 1).1._rate_int 0 = -1) := by
  refine ⟨⟨by simp [windup, setSaturationStatus], by simp, ?_⟩,
    ⟨by simp [overflowing_low], by simp, by simp [overflowing_low],
      by simp [overflowing_low, idle], ?_, ?_⟩⟩
  · simp only [updateIntegral_eq]
    norm_num [next_integral, rate_i, float_add, float_mul, float_result, FLT_MAX, PX4_ISFINITE,
      float_value, clamped_error, selected_gain_i, windup, setSaturationStatus,
      setPidGains, idle, rc_pid, math.max, math.min, math.constrain, math.radians, math.M_PI_F,
      abs_le]
  · simp only [updateIntegral_eq]
    norm_num [next_integral, rate_i, float_add, float_mul, float_result, FLT_MAX, PX4_ISFINITE,
      float_value, clamped_error, selected_gain_i, overflowing_low, idle, rc_pid, math.max,
      math.min, math.constrain, math.radians, math.M_PI_F, abs_le]
  · simp only [updateIntegral_eq]
    norm_num [next_integral, rate_i, float_add, float_mul, float_result, FLT_MAX, PX4_ISFINITE,
      float_value, clamped_error, selected_gain_i, overflowing_low, idle, rc_pid, math.max,
      math.min, math.constrain, math.radians, math.M_PI_F, abs_le]

/-- C6, amended: with the positive-saturation flag set on axis i and rate_error(i) > 0,
if the integral gain selected for axis i times dt is non-negative and the prior
integral of axis i is within the limit (|integral(i)| <= limit(i)), the integral of
axis i after `updateIntegral` is at most the integral of axis i that the same call
produces with that flag cleared. -/
theorem C6_anti_windup (s : RateControl) (rate_error : Vector3f) (dt : ℚ) (i : Fin 3)
    (hflag : s._control_allocator_saturation_positive i = true) (he : rate_error i > 0)
    (hg : 0 ≤ (if s._rc_channel_values.channels 4 > -1 then s._mfc_gain_i i else s._gain_i i) * dt)
    (hb : |s._rate_int i| ≤ s._lim_int i) :
    (updateIntegral s rate_error dt).1._rate_int i ≤
      (updateIntegral
        { s with
          _control_allocator_saturation_positive :=
            Function.update s._control_allocator_saturation_positive i false }
        rate_error dt).1._rate_int i := by
  have hl : 0 ≤ s._lim_int i := le_trans (abs_nonneg _) hb
  simp only [updateIntegral_eq]
  rw [next_integral_zero_error s rate_error dt i
    (clamped_error_pos s rate_error i hflag (le_of_lt he)) hb]
  rcases next_integral_cases
    { s with
      _control_allocator_saturation_positive :=
        Function.update s._control_allocator_saturation_positive i false }
    rate_error dt i with ⟨-, h⟩ | ⟨r, hr, h⟩
  · rw [h]
  · rw [h]
    unfold rate_i at hr
    have hv := (float_chain_value _ _ _ _ _ _ hr).1
    rw [clamped_error_clear _ rate_error i (by simp) (le_of_lt he)] at hv
    have hf :=
      max_zero_nonneg (1 - rate_error i / math.radians 400 * (rate_error i / math.radians 400))
    have hsel : selected_gain_i
        { s with
          _control_allocator_saturation_positive :=
            Function.update s._control_allocator_saturation_positive i false } i * dt =
        (if s._rc_channel_values.channels 4 > -1 then s._mfc_gain_i i else s._gain_i i) * dt := by
      unfold selected_gain_i
      split_ifs <;> rfl
    have hinc : 0 ≤ math.max 0
          (1 - rate_error i / math.radians 400 * (rate_error i / math.radians 400)) *
        (selected_gain_i
          { s with
            _control_allocator_saturation_positive :=
              Function.update s._control_allocator_saturation_positive i false } i * dt) *
          rate_error i := by
      rw [hsel]
      exact mul_nonneg (mul_nonneg hf hg) (le_of_lt he)
    have hle : s._rate_int i ≤ r := by
      rw [hv]
      simp only at hinc ⊢
      nlinarith [hinc]
    calc s._rate_int i = math.constrain (s._rate_int i) (-(s._lim_int i)) (s._lim_int i) :=
          (constrain_self _ _ hb).symm
      _ ≤ math.constrain r (-(s._lim_int i)) (s._lim_int i) := constrain_mono _ _ _ hl hle

/-- C6 (amended) at the saturation scenario: I = [1,1,1], roll flag set, error 2,
dt = 0.01. -/
theorem C6_anti_windup_witness :
    (updateIntegral saturated ![2, 0, 0] (1 / 100)).1._rate_int 0 ≤
      (updateIntegral
        { saturated with
          _control_allocator_saturation_positive :=
            Function.update saturated._control_allocator_saturation_positive 0 false }
        ![2, 0, 0] (1 / 100)).1._rate_int 0 :=
  C6_anti_windup saturated ![2, 0, 0] (1 / 100) 0
    (by simp [saturated, setSaturationStatus])
    (by simp)
    (by norm_num [saturated, setSaturationStatus, setPidGains, idle, rc_pid])
    (by simp [saturated, setSaturationStatus, setPidGains, idle])

/-- C7: for every gain and dt and every prior integral within the limit, if the
positive-saturation flag of axis i is set and rate_error(i) >= 0, or the
negative-saturation flag is set and rate_error(i) <= 0, then after a not-landed
update (either law) the integral of axis i equals its prior value. -/
theorem C7_saturated_axis_frozen (s : RateControl) (rc : rc_channels_s) (now : Nat)
    (rate rate_sp angular_accel : Vector3f) (dt : ℚ) (i : Fin 3)
    (hb : |s._rate_int i| ≤ s._lim_int i)
    (hsat : (s._control_allocator_saturation_positive i = true ∧ rate_sp i - rate i ≥ 0) ∨
      (s._control_allocator_saturation_negative i = true ∧ rate_sp i - rate i ≤ 0)) :
    (update s rc now rate rate_sp angular_accel dt false).1._rate_int i = s._rate_int i := by
  rw [update_rate_int]
  have hce : clamped_error { s with _rc_channel_values := rc } (rate_sp - rate) i = 0 := by
    rcases hsat with ⟨hp, he⟩ | ⟨hn, he⟩
    · exact clamped_error_pos _ _ i hp he
    · exact clamped_error_neg _ _ i hn he
  simp only [Bool.false_eq_true, if_false]
  exact next_integral_zero_error { s with _rc_channel_values := rc } _ dt i hce hb

/-- C7 at the scenario of the specification: saturation_positive = [true,false,false],
I = [1,1,1], rate_error(0) = 2, dt = 0.01, prior integral 0: integral(0) stays 0. -/
theorem C7_saturated_axis_frozen_witness :
    saturated._control_allocator_saturation_positive 0 = true ∧
    (![2, 0, 0] : Vector3f) 0 - (0 : Vector3f) 0 = 2 ∧ saturated._gain_i = ![1, 1, 1] ∧
    saturated._rate_int 0 = 0 ∧
    (update saturated rc_pid 0 0 ![2, 0, 0] 0 (1 / 100) false).1._rate_int 0 = 0 := by
  refine ⟨by simp [saturated, setSaturationStatus], by simp, by simp [saturated,
    setSaturationStatus, setPidGains], by simp [saturated, setSaturationStatus, setPidGains, idle],
    ?_⟩
  rw [C7_saturated_axis_frozen saturated rc_pid 0 0 ![2, 0, 0] 0 (1 / 100) 0
    (by simp [saturated, setSaturationStatus, setPidGains, idle])
    (Or.inl ⟨by simp [saturated, setSaturationStatus], by simp⟩)]
  simp [saturated, setSaturationStatus, setPidGains, idle]

/-- C8 as stated fails: the guard `PX4_ISFINITE(rate_i)` keeps the old integral when
the sum is not finite.  On the PID law with no flag set, integral gain 3e38, limit 1,
prior integral 0.5, rate error 2 and dt 1 the product overflows, so integral(0) stays
0.5, whereas `constrain(old + f*g*e*dt, -limit, limit)` is 1. -/
theorem C8_counterexample :
    overflowing._control_allocator_saturation_positive 0 = false ∧
    overflowing._control_allocator_saturation_negative 0 = false ∧
    ¬ rc_pid.channels 4 > -1 ∧
    (update overflowing rc_pid 0 0 ![2, 0, 0] 0 1 false).1._rate_int 0 = 1 / 2 ∧
    math.constrain
      (overflowing._rate_int 0 +
        math.max 0 (1 - (((![2, 0, 0] : Vector3f) 0 - (0 : Vector3f) 0) / math.radians 400) ^ 2) *
          overflowing._gain_i 0 * ((![2, 0, 0] : Vector3f) 0 - (0 : Vector3f) 0) * 1)
      (-(overflowing._lim_int 0)) (overflowing._lim_int 0) = 1 := by
  refine ⟨by simp [overflowing, idle], by simp [overflowing, idle], by simp [rc_pid], ?_, ?_⟩
  · refine (update_rate_int_no_flags overflowing rc_pid 0 0 ![2, 0, 0] 0 1 0
      (by simp [overflowing, idle]) (by simp [overflowing, idle])).2 ?_
    norm_num [no_overflow, FLT_MAX, overflowing, idle, rc_pid,
      math.max, math.radians, math.M_PI_F, abs_le]
  · have h1 : overflowing._rate_int 0 = 1 / 2 := rfl
    have h2 : overflowing._gain_i 0 = 300000000000000000000000000000000000000 := rfl
    have h3 : overflowing._lim_int 0 = 1 := rfl
    rw [h1, h2, h3]
    norm_num [math.max, math.constrain, math.min, math.radians, math.M_PI_F]

/-- C8, amended: on an axis i with no saturation flag set, a not-landed update sets
integral(i) to `constrain(old(i) + f*g(i)*e(i)*dt, -limit(i), limit(i))` with
`e = rate_sp - rate`, `f = max(0, 1 - (e(i)/radians(400))^2)` and `g` the MFC integral
gain when the mode-select channel is > -1.0 and the PID integral gain otherwise,
provided that the operands `old(i)`, `f`, `g(i)`, `e(i)`, `dt`, the products `f*g`,
`f*g*e`, `f*g*e*dt` and the sum stay within `FLT_MAX` in magnitude; otherwise
integral(i) keeps its old value.  Under the PID law
the result does not depend on the MFC integral gain, and under the MFC law it does
not depend on the PID integral gain. -/
theorem C8_integral_formula (s : RateControl) (rc : rc_channels_s) (now : Nat)
    (rate rate_sp angular_accel : Vector3f) (dt : ℚ) (i : Fin 3)
    (hp : s._control_allocator_saturation_positive i = false)
    (hn : s._control_allocator_saturation_negative i = false) :
    (no_overflow (s._rate_int i)
        (math.max 0 (1 - ((rate_sp i - rate i) / math.radians 400) ^ 2))
        (if rc.channels 4 > -1 then s._mfc_gain_i i else s._gain_i i) (rate_sp i - rate i) dt →
      (update s rc now rate rate_sp angular_accel dt false).1._rate_int i =
        math.constrain
          (s._rate_int i +
            math.max 0 (1 - ((rate_sp i - rate i) / math.radians 400) ^ 2) *
              (if rc.channels 4 > -1 then s._mfc_gain_i i else s._gain_i i) *
              (rate_sp i - rate i) * dt)
          (-(s._lim_int i)) (s._lim_int i)) ∧
    (¬ no_overflow (s._rate_int i)
        (math.max 0 (1 - ((rate_sp i - rate i) / math.radians 400) ^ 2))
        (if rc.channels 4 > -1 then s._mfc_gain_i i else s._gain_i i) (rate_sp i - rate i) dt →
      (update s rc now rate rate_sp angular_accel dt false).1._rate_int i = s._rate_int i) ∧
    (¬ rc.channels 4 > -1 → ∀ I : Vector3f,
      (update { s with _mfc_gain_i := I } rc now rate rate_sp angular_accel dt false).1._rate_int i
        = (update s rc now rate rate_sp angular_accel dt false).1._rate_int i) ∧
    (rc.channels 4 > -1 → ∀ I : Vector3f,
      (update { s with _gain_i := I } rc now rate rate_sp angular_accel dt false).1._rate_int i
        = (update s rc now rate rate_sp angular_accel dt false).1._rate_int i) := by
  have key := update_rate_int_no_flags s rc now rate rate_sp angular_accel dt i hp hn
  refine ⟨key.1, key.2, fun h I => ?_, fun h I => ?_⟩
  · have key2 := update_rate_int_no_flags { s with _mfc_gain_i := I } rc now rate rate_sp
      angular_accel dt i hp hn
    simp only [h, if_false] at key key2
    by_cases hno : no_overflow (s._rate_int i)
        (math.max 0 (1 - ((rate_sp i - rate i) / math.radians 400) ^ 2)) (s._gain_i i)
        (rate_sp i - rate i) dt
    · rw [key.1 hno, key2.1 hno]
    · rw [key.2 hno, key2.2 hno]
  · have key2 := update_rate_int_no_flags { s with _gain_i := I } rc now rate rate_sp
      angular_accel dt i hp hn
    simp only [h, if_true] at key key2
    by_cases hno : no_overflow (s._rate_int i)
        (math.max 0 (1 - ((rate_sp i - rate i) / math.radians 400) ^ 2)) (s._mfc_gain_i i)
        (rate_sp i - rate i) dt
    · rw [key.1 hno, key2.1 hno]
    · rw [key.2 hno, key2.2 hno]

/-- C8 (amended) at the scenario controller, roll axis, error 1, dt = 0.004, where the
MFC tick integrates with the MFC gain 1, and at the overflowing controller, where
the integral keeps its value 0.5. -/
theorem C8_integral_formula_witness :
    (update scenario rc_mfc 0 0 ![1, 0, 0] 0 (1 / 250) false).1._rate_int 0 =
      math.constrain (0 + math.max 0 (1 - (1 / math.radians 400) ^ 2) * 1 * 1 * (1 / 250)) (-1) 1 ∧
    (update overflowing rc_pid 0 0 ![2, 0, 0] 0 1 false).1._rate_int 0 = 1 / 2 := by
  constructor
  · rw [(C8_integral_formula scenario rc_mfc 0 0 ![1, 0, 0] 0 (1 / 250) 0
      (by simp [scenario, setMFCGains, setPidGains, idle])
      (by simp [scenario, setMFCGains, setPidGains, idle])).1
      (by norm_num [no_overflow, FLT_MAX, scenario, setMFCGains, setPidGains, idle, rc_mfc,
        math.max, math.radians, math.M_PI_F, abs_le])]
    simp [scenario, setMFCGains, setPidGains, idle, rc_mfc]
  · rw [(C8_integral_formula overflowing rc_pid 0 0 ![2, 0, 0] 0 1 0
      (by simp [overflowing, idle])
      (by simp [overflowing, idle])).2.1
      (by norm_num [no_overflow, FLT_MAX, overflowing, idle, rc_pid,
        math.max, math.radians, math.M_PI_F, abs_le])]
    simp [overflowing]

/-- C9: with the MFC law selected and landed = false, `update` returns on roll and
pitch `(sp_der + c - f_hat) / lambda` and on yaw `c`, where
`c = P_mfc*(rate_sp - rate) + integral - D_mfc*angular_accel + FF*rate_sp` uses the
integral state after this tick's integral update, `sp_der = SP_der_gain *
F_hat_F(false, true, setpoint window, last-output window)` and `f_hat = Fhat_gain *
F_hat_F(false, false, rate window, last-output window)`, the windows and the
time-offset buffer being those after this tick's shift and append. -/
theorem C9_mfc_command (s : RateControl) (rc : rc_channels_s) (now : Nat)
    (rate rate_sp angular_accel : Vector3f) (dt : ℚ) (h : rc.channels 4 > -1) :
    let w : RateControl := { s with _time_steps := push_pop_time s s._time_steps dt }
    let roll_u := push s (pop s s._roll_last_u) (s._last_u 0)
    let pitch_u := push s (pop s s._pitch_last_u) (s._last_u 1)
    let integral :=
      (updateIntegral { s with _rc_channel_values := rc } (rate_sp - rate) dt).1._rate_int
    let c : Vector3f := fun i =>
      s._mfc_gain_p i * (rate_sp i - rate i) + integral i - s._mfc_gain_d i * angular_accel i
        + s._gain_ff i * rate_sp i
    let u := (update s rc now rate rate_sp angular_accel dt false).2
    u 0 =
        (s._gain_sp * (F_hat_F w false true (push s (pop s s._roll_sp_values) (rate_sp 0)) roll_u).2
          + c 0
          - s._gain_f_hat *
            (F_hat_F w false false (push s (pop s s._roll_rate_values) (rate 0)) roll_u).2)
        / s._lambda ∧
    u 1 =
        (s._gain_sp *
            (F_hat_F w false true (push s (pop s s._pitch_sp_values) (rate_sp 1)) pitch_u).2
          + c 1
          - s._gain_f_hat *
            (F_hat_F w false false (push s (pop s s._pitch_rate_values) (rate 1)) pitch_u).2)
        / s._lambda ∧
    u 2 = c 2 :=
  update_mfc_torque s rc now rate rate_sp angular_accel dt h

/-- C9 at the scenario controller: MFC tick, setpoint [0,0,1], yaw axis. -/
theorem C9_mfc_command_witness :
    rc_mfc.channels 4 > -1 ∧
    (update scenario rc_mfc 0 0 ![0, 0, 1] 0 (1 / 250) false).2 2 =
      scenario._mfc_gain_p 2 * ((![0, 0, 1] : Vector3f) 2 - (0 : Vector3f) 2)
        + (updateIntegral { scenario with _rc_channel_values := rc_mfc }
            ((![0, 0, 1] : Vector3f) - 0) (1 / 250)).1._rate_int 2
        - scenario._mfc_gain_d 2 * (0 : Vector3f) 2
        + scenario._gain_ff 2 * (![0, 0, 1] : Vector3f) 2 :=
  ⟨by simp [rc_mfc],
    (C9_mfc_command scenario rc_mfc 0 0 ![0, 0, 1] 0 (1 / 250) (by simp [rc_mfc])).2.2⟩

/-- C10: what the code computes for an even window length N >= 4: the Simpson sum
of the specification (weights 1 at the endpoints, 4 at interior odd and 2 at
interior even indices) plus a second copy of the weight-4 term of sample 1, so the
weight of index 1 is 8 and the stated formula does not hold. -/
theorem C10_quadrature_weights (s : RateControl) (y z : Bool) (m u : Nat → ℚ)
    (hev : s._mfc_n % 2 = 0) (h4 : 4 ≤ s._mfc_n) :
    (F_hat_F s y z m u).2 =
      simpson_spec s y z m u +
        (s._time_steps (s._mfc_n - 1) / 3) *
          (4 * F_hat { s with _mfc_dt := s._time_steps (s._mfc_n - 1) } (s._time_steps 1) y z (m 1)
            (u 1)) := by
  obtain ⟨q, hq⟩ : ∃ q, s._mfc_n = 2 * q + 4 := ⟨(s._mfc_n - 4) / 2, by omega⟩
  have hn1 : s._mfc_n - 1 = 2 * q + 3 := by omega
  rw [F_hat_F_sum s y z m u q hq]
  unfold simpson_spec
  dsimp only
  have hp := simpson_pairing
    (fun i => F_hat { s with _mfc_dt := s._time_steps (s._mfc_n - 1) } (s._time_steps i) y z
      (m i) (u i)) q
  rw [← hq] at hp
  rw [hp, hn1]
  ring

/-- C10 at a failing input: N = 4, time offsets 0,1,2,3, measurement window
0,1,0,0, last-output window 0, y = false, z = true: the specified value is -80/27,
the code returns -160/27. -/
theorem C10_quadrature_weights_witness :
    quad._mfc_n % 2 = 0 ∧ 4 ≤ quad._mfc_n ∧
    simpson_spec quad false true quad_m quad_u = -80 / 27 ∧
    (F_hat_F quad false true quad_m quad_u).2 = -160 / 27 := by
  have h := C10_quadrature_weights quad false true quad_m quad_u (by simp [quad, idle])
    (by simp [quad, idle])
  have hs : simpson_spec quad false true quad_m quad_u = -80 / 27 := by
    norm_num [simpson_spec, simpson_weight, Finset.sum_range_succ, F_hat, quad, idle, quad_m,
      quad_u]
  refine ⟨by simp [quad, idle], by simp [quad, idle], hs, ?_⟩
  rw [h, hs]
  norm_num [F_hat, quad, idle, quad_m, quad_u]

/-- C11: for a window length N >= 2, `pop` followed by `push` with value v turns a
buffer b into b' with b'[i] = b[i+1] for 0 <= i <= N-2 and b'[N-1] = v; and every
`update_mfc` call, landed or not, applies exactly this to the six sample buffers, with
v the cached last output (roll, pitch), the current setpoint (roll, pitch) and the
current rate (roll, pitch). -/
theorem C11_sliding_window_shift (s : RateControl) (now : Nat)
    (rate rate_sp angular_accel : Vector3f) (dt : ℚ) (landed : Bool) (b : Nat → ℚ) (v : ℚ)
    (h : 2 ≤ s._mfc_n) :
    ((∀ i, i + 2 ≤ s._mfc_n → push s (pop s b) v i = b (i + 1)) ∧
      push s (pop s b) v (s._mfc_n - 1) = v) ∧
    (update_mfc s now rate rate_sp angular_accel dt landed).1._roll_last_u =
        push s (pop s s._roll_last_u) (s._last_u 0) ∧
    (update_mfc s now rate rate_sp angular_accel dt landed).1._pitch_last_u =
        push s (pop s s._pitch_last_u) (s._last_u 1) ∧
    (update_mfc s now rate rate_sp angular_accel dt landed).1._roll_sp_values =
        push s (pop s s._roll_sp_values) (rate_sp 0) ∧
    (update_mfc s now rate rate_sp angular_accel dt landed).1._pitch_sp_values =
        push s (pop s s._pitch_sp_values) (rate_sp 1) ∧
    (update_mfc s now rate rate_sp angular_accel dt landed).1._roll_rate_values =
        push s (pop s s._roll_rate_values) (rate 0) ∧
    (update_mfc s now rate rate_sp angular_accel dt landed).1._pitch_rate_values =
        push s (pop s s._pitch_rate_values) (rate 1) := by
  obtain ⟨h1, h2, h3, h4, h5, h6, -, -⟩ :=
    update_mfc_windows s now rate rate_sp angular_accel dt landed
  exact ⟨push_pop_apply s b v h, h1, h2, h3, h4, h5, h6⟩

/-- C11 at a concrete input: the roll setpoint window 0,1,2,3 after a landed MFC tick
with setpoint 7 reads 1,2,3,7. -/
theorem C11_sliding_window_shift_witness :
    2 ≤ ramp._mfc_n ∧
    (update_mfc ramp 0 0 ![7, 0, 0] 0 (1 / 250) true).1._roll_sp_values 0 = 1 ∧
    (update_mfc ramp 0 0 ![7, 0, 0] 0 (1 / 250) true).1._roll_sp_values 2 = 3 ∧
    (update_mfc ramp 0 0 ![7, 0, 0] 0 (1 / 250) true).1._roll_sp_values 3 = 7 := by
  have hn : 2 ≤ ramp._mfc_n := by simp [ramp, idle]
  have h := C11_sliding_window_shift ramp 0 0 ![7, 0, 0] 0 (1 / 250) true ramp._roll_sp_values
    ((![7, 0, 0] : Vector3f) 0) hn
  obtain ⟨⟨ha, hb⟩, -, -, hc, -⟩ := h
  rw [hc]
  refine ⟨hn, ?_, ?_, ?_⟩
  · rw [ha 0 (by simp [ramp, idle])]; simp [ramp]
  · rw [ha 2 (by simp [ramp, idle])]; norm_num [ramp]
  · have h3 : ramp._mfc_n - 1 = 3 := by simp [ramp, idle]
    rw [h3] at hb
    rw [hb]; simp

/-- C12 as stated fails: with N = 3 and time offsets 1, 3, 4 the interior entry 1 after
`push_pop_time` is 3, while the stated right-hand side taken in the values before the
call, offset[2] - offset[1] + offset[0], is 2. -/
theorem C12_counterexample :
    3 ≤ jitter._mfc_n ∧ 1 ≤ jitter._mfc_n - 2 ∧
    push_pop_time jitter jitter._time_steps (1 / 250) 1 = 3 ∧
    push_pop_time jitter jitter._time_steps (1 / 250) 1 ≠
      jitter._time_steps (1 + 1) - jitter._time_steps 1 + jitter._time_steps (1 - 1) := by
  have hn : 2 ≤ jitter._mfc_n := by simp [jitter]
  have h3 : push_pop_time jitter jitter._time_steps (1 / 250) 1 = 3 := by
    rw [push_pop_time_apply jitter _ _ hn]
    norm_num [jitter]
  refine ⟨by simp [jitter], by simp [jitter], h3, ?_⟩
  rw [h3]
  norm_num [jitter]

/-- C12, amended: for N >= 3, `push_pop_time` produces new_offset[0] = offset[1] -
offset[0], new_offset[i] = offset[i+1] - offset[i] + new_offset[i-1] for every interior
index 1 <= i <= N-2, where offset[i+1] and offset[i] are the values before the call and
new_offset[i-1] is the entry already rewritten by the call, and new_offset[N-1] =
new_offset[N-2] + dt. -/
theorem C12_time_rebase (s : RateControl) (offset : Nat → ℚ) (dt : ℚ) (h : 3 ≤ s._mfc_n) :
    push_pop_time s offset dt 0 = offset 1 - offset 0 ∧
    (∀ i, 1 ≤ i → i ≤ s._mfc_n - 2 →
      push_pop_time s offset dt i =
        offset (i + 1) - offset i + push_pop_time s offset dt (i - 1)) ∧
    push_pop_time s offset dt (s._mfc_n - 1) = push_pop_time s offset dt (s._mfc_n - 2) + dt := by
  have hn : 2 ≤ s._mfc_n := by omega
  refine ⟨?_, ?_, ?_⟩
  · rw [push_pop_time_apply s _ _ hn, if_pos (by omega)]
  · intro i h1 h2
    rw [push_pop_time_apply s _ _ hn, push_pop_time_apply s _ _ hn, if_pos (by omega),
      if_pos (by omega)]
    have : i - 1 + 1 = i := by omega
    rw [this]
    ring
  · rw [push_pop_time_apply s _ _ hn, push_pop_time_apply s _ _ hn, if_neg (by omega),
      if_pos rfl, if_pos (by omega)]
    have : s._mfc_n - 2 + 1 = s._mfc_n - 1 := by omega
    rw [this]

/-- C12 (amended) at N = 3, time offsets 1, 3, 4, interior index 1. -/
theorem C12_time_rebase_witness :
    3 ≤ jitter._mfc_n ∧
    push_pop_time jitter jitter._time_steps (1 / 250) 1 =
      jitter._time_steps 2 - jitter._time_steps 1
        + push_pop_time jitter jitter._time_steps (1 / 250) 0 :=
  ⟨by simp [jitter],
    (C12_time_rebase jitter jitter._time_steps (1 / 250) (by simp [jitter])).2.1 1 (le_refl 1)
      (by simp [jitter])⟩

/-- C13: for N >= 2, if the time-offset buffer is non-decreasing over the window before
`push_pop_time` and dt >= 0, then it is non-decreasing over the window afterwards and
its first entry is non-negative. -/
theorem C13_monotone_time_axis (s : RateControl) (offset : Nat → ℚ) (dt : ℚ)
    (h : 2 ≤ s._mfc_n) (hmono : ∀ i, i + 1 < s._mfc_n → offset i ≤ offset (i + 1))
    (hdt : 0 ≤ dt) :
    (∀ i, i + 1 < s._mfc_n →
      push_pop_time s offset dt i ≤ push_pop_time s offset dt (i + 1)) ∧
    0 ≤ push_pop_time s offset dt 0 := by
  constructor
  · intro i hi
    rw [push_pop_time_apply s _ _ h, push_pop_time_apply s _ _ h, if_pos (by omega)]
    by_cases h2 : i + 1 + 2 ≤ s._mfc_n
    · rw [if_pos h2]
      have := hmono (i + 1) (by omega)
      linarith
    · rw [if_neg h2, if_pos (by omega)]
      have h3 : s._mfc_n - 1 = i + 1 := by omega
      rw [h3]
      linarith
  · rw [push_pop_time_apply s _ _ h, if_pos (by omega)]
    have := hmono 0 (by omega)
    linarith

/-- C13 at N = 3, time offsets 1, 3, 4, dt = 0.004. -/
theorem C13_monotone_time_axis_witness :
    push_pop_time jitter jitter._time_steps (1 / 250) 0 ≤
      push_pop_time jitter jitter._time_steps (1 / 250) 1 ∧
    push_pop_time jitter jitter._time_steps (1 / 250) 1 ≤
      push_pop_time jitter jitter._time_steps (1 / 250) 2 ∧
    0 ≤ push_pop_time jitter jitter._time_steps (1 / 250) 0 := by
  have h := C13_monotone_time_axis jitter jitter._time_steps (1 / 250) (by simp [jitter])
    (by
      intro i hi
      have hi' : i + 1 < 3 := by simpa [jitter] using hi
      have hi2 : i < 2 := by omega
      interval_cases i <;> norm_num [jitter])
    (by norm_num)
  exact ⟨h.1 0 (by simp [jitter]), h.1 1 (by simp [jitter]), h.2⟩

/-- C14: a single-axis saturation setter called with axis >= 3 leaves the whole
controller unchanged; with axis < 3, `setPositiveSaturationFlag` sets the positive flag
of that axis to b and leaves the positive flags of the other axes and all negative
flags unchanged, and symmetrically for `setNegativeSaturationFlag`. -/
theorem C14_saturation_setters (s : RateControl) (axis : Nat) (b : Bool) :
    (3 ≤ axis →
      setPositiveSaturationFlag s axis b = s ∧ setNegativeSaturationFlag s axis b = s) ∧
    (∀ h : axis < 3,
      ((setPositiveSaturationFlag s axis b)._control_allocator_saturation_positive ⟨axis, h⟩ = b ∧
        (∀ j : Fin 3, j ≠ ⟨axis, h⟩ →
          (setPositiveSaturationFlag s axis b)._control_allocator_saturation_positive j =
            s._control_allocator_saturation_positive j) ∧
        (setPositiveSaturationFlag s axis b)._control_allocator_saturation_negative =
          s._control_allocator_saturation_negative) ∧
      ((setNegativeSaturationFlag s axis b)._control_allocator_saturation_negative ⟨axis, h⟩ = b ∧
        (∀ j : Fin 3, j ≠ ⟨axis, h⟩ →
          (setNegativeSaturationFlag s axis b)._control_allocator_saturation_negative j =
            s._control_allocator_saturation_negative j) ∧
        (setNegativeSaturationFlag s axis b)._control_allocator_saturation_positive =
          s._control_allocator_saturation_positive)) := by
  constructor
  · intro h
    have h' : ¬ axis < 3 := by omega
    simp [setPositiveSaturationFlag, setNegativeSaturationFlag, h']
  · intro h
    simp only [setPositiveSaturationFlag, setNegativeSaturationFlag, dif_pos h,
      Function.update_same, true_and, and_true]
    exact ⟨fun j hj => Function.update_noteq hj _ _, fun j hj => Function.update_noteq hj _ _⟩

/-- C14 at concrete inputs: axis 5 is ignored, axes 1 and 2 are set. -/
theorem C14_saturation_setters_witness :
    setPositiveSaturationFlag idle 5 true = idle ∧
    (setPositiveSaturationFlag idle 1 true)._control_allocator_saturation_positive 1 = true ∧
    (setPositiveSaturationFlag idle 1 true)._control_allocator_saturation_positive 0 = false ∧
    (setNegativeSaturationFlag idle 2 true)._control_allocator_saturation_negative 2 = true := by
  have h5 := (C14_saturation_setters idle 5 true).1 (by norm_num)
  have h1 := (C14_saturation_setters idle 1 true).2 (by norm_num)
  have h2 := (C14_saturation_setters idle 2 true).2 (by norm_num)
  refine ⟨h5.1, h1.1.1, ?_, h2.2.1⟩
  rw [h1.1.2.1 0 (by decide)]
  simp [idle]

/-- C15: after every `update` call (either law, landed or not) the cached `_last_u`
equals the returned torque; so on a following MFC tick the value appended at the end
of the roll and pitch last-output windows is the torque returned by this call. -/
theorem C15_last_output_cache (s : RateControl) (rc rc2 : rc_channels_s) (now now2 : Nat)
    (rate rate_sp angular_accel rate2 rate_sp2 angular_accel2 : Vector3f) (dt dt2 : ℚ)
    (landed landed2 : Bool) :
    (update s rc now rate rate_sp angular_accel dt landed).1._last_u =
      (update s rc now rate rate_sp angular_accel dt landed).2 ∧
    (rc2.channels 4 > -1 →
      (update (update s rc now rate rate_sp angular_accel dt landed).1 rc2 now2 rate2 rate_sp2
          angular_accel2 dt2 landed2).1._roll_last_u (s._mfc_n - 1) =
        (update s rc now rate rate_sp angular_accel dt landed).2 0 ∧
      (update (update s rc now rate rate_sp angular_accel dt landed).1 rc2 now2 rate2 rate_sp2
          angular_accel2 dt2 landed2).1._pitch_last_u (s._mfc_n - 1) =
        (update s rc now rate rate_sp angular_accel dt landed).2 1) := by
  refine ⟨update_last_u s rc now rate rate_sp angular_accel dt landed, fun h2 => ?_⟩
  have hn := update_mfc_n s rc now rate rate_sp angular_accel dt landed
  have hl := update_last_u s rc now rate rate_sp angular_accel dt landed
  generalize update s rc now rate rate_sp angular_accel dt landed = U at hn hl ⊢
  rw [update_eq_update_mfc _ rc2 now2 rate2 rate_sp2 angular_accel2 dt2 landed2 h2]
  obtain ⟨h1, h2', -⟩ := update_mfc_windows { U.1 with _rc_channel_values := rc2 }
    now2 rate2 rate_sp2 angular_accel2 dt2 landed2
  rw [h1, h2']
  simp only [push]
  rw [hn, Function.update_same, Function.update_same, hl]
  exact ⟨rfl, rfl⟩

/-- C15 at a concrete input: a PID tick returning roll torque 1, then a landed MFC
tick: the last slot of the roll last-output window holds 1. -/
theorem C15_last_output_cache_witness :
    rc_mfc.channels 4 > -1 ∧
    (update (update scenario rc_pid 0 0 ![1, 0, 0] 0 (1 / 250) false).1 rc_mfc 1 0 ![2, 0, 0] 0
        (1 / 250) true).1._roll_last_u 3 = 1 := by
  have hm : rc_mfc.channels 4 > -1 := by simp [rc_mfc]
  have h := ((C15_last_output_cache scenario rc_pid rc_mfc 0 1 0 ![1, 0, 0] 0 0 ![2, 0, 0] 0
    (1 / 250) (1 / 250) false true).2 hm).1
  have hn : scenario._mfc_n - 1 = 3 := by simp [scenario, setMFCGains]
  rw [hn] at h
  refine ⟨hm, ?_⟩
  rw [h]
  simp [update, rc_pid, emult, scenario, setMFCGains, setPidGains, idle]

/-- C16: what the bounds-checked estimator does for an even window length N >= 4
with all three buffers of length exactly N: the writes into `Tot_e` and `Tot_o` stay
within 0..N-1, but the last loop iteration (i = N/2) reads the three buffers at index
N+1 and the time-offset buffer at index N, outside 0..N-1, so the out-of-range branch
is taken and the checked call yields no value. -/
theorem C16_reads_past_window (s : RateControl) (y z : Bool) (t m u : List ℚ)
    (hev : s._mfc_n % 2 = 0) (h4 : 4 ≤ s._mfc_n) (ht : t.length = s._mfc_n)
    (hm : m.length = s._mfc_n) (hu : u.length = s._mfc_n) :
    (∀ (Tot : List ℚ) (i : Nat) (v : ℚ), Tot.length = s._mfc_n → i < s._mfc_n / 2 + 1 →
      store Tot (i + 1) v ≠ none ∧ store Tot i v ≠ none) ∧
    load t (2 * (s._mfc_n / 2) + 1) = none ∧ load m (2 * (s._mfc_n / 2) + 1) = none ∧
    load u (2 * (s._mfc_n / 2) + 1) = none ∧ load t (2 * (s._mfc_n / 2)) = none ∧
    F_hat_F_checked s y z t m u = none := by
  refine ⟨?_, load_none t _ (by omega), load_none m _ (by omega), load_none u _ (by omega),
    load_none t _ (by omega), ?_⟩
  · intro Tot i v hT hi
    have h1 : i + 1 < Tot.length := by omega
    have h2 : i < Tot.length := by omega
    simp [store, h1, h2]
  · unfold F_hat_F_checked
    have hloop : ∀ (s' : RateControl) (a : List ℚ × List ℚ),
        List.foldlM (F_hat_F_loop s' y z t m u) a (List.range (s._mfc_n / 2 + 1)) = none := by
      intro s' a
      apply foldlM_last_none
      intro x
      simp [F_hat_F_loop, F_hat_at_none s' y z t m u (2 * (s._mfc_n / 2) + 1) (by omega)]
    cases hl : load t (s._mfc_n - 1) with
    | none => rfl
    | some d => simp [hloop]

/-- C16 at a failing input: N = 4 and buffers of length 4; the read at index 5 is out
of range and the checked call yields no value. -/
theorem C16_reads_past_window_witness :
    quad._mfc_n = 4 ∧ quad_t.length = 4 ∧ load quad_t 5 = none ∧
    F_hat_F_checked quad false true quad_t [0, 1, 0, 0] [0, 0, 0, 0] = none := by
  have h := C16_reads_past_window quad false true quad_t [0, 1, 0, 0] [0, 0, 0, 0]
    (by simp [quad, idle]) (by simp [quad, idle]) (by simp [quad, idle, quad_t])
    (by simp [quad, idle]) (by simp [quad, idle])
  have hn : quad._mfc_n = 4 := by simp [quad, idle]
  rw [hn] at h
  exact ⟨hn, rfl, h.2.1, h.2.2.2.2.2⟩

/-- C17: every `update` call publishes exactly one record; under the PID law and on a
not-landed MFC tick its three torque entries are the returned torque, but on a landed
MFC tick they are the `_current_u` held at entry, not the returned torque. -/
theorem C17_diagnostics_torque (s : RateControl) (rc : rc_channels_s) (now : Nat)
    (rate rate_sp angular_accel : Vector3f) (dt : ℚ) (landed : Bool) :
    ∃ r : pidvalues_s,
      (update s rc now rate rate_sp angular_accel dt landed).1._pid_values_pub =
        r :: s._pid_values_pub ∧
      ((¬ rc.channels 4 > -1 ∨ landed = false) →
        r.torque = (update s rc now rate rate_sp angular_accel dt landed).2) ∧
      (rc.channels 4 > -1 → landed = true → r.torque = s._current_u) := by
  by_cases hc : rc.channels 4 > -1
  · cases landed
    · simp [update, hc, update_mfc, update_mfc_command, update_mfc_shift, F_hat_F,
        updateIntegral_eq, publish]
    · simp [update, hc, update_mfc, update_mfc_shift, publish]
  · cases landed <;> simp [update, hc, publish, updateIntegral_eq] <;> rfl

/-- C17 at a failing input: landed MFC tick of the scenario controller with setpoint
[2,0,0]: the call returns roll torque 2, the published record carries roll torque 0. -/
theorem C17_diagnostics_torque_witness :
    rc_mfc.channels 4 > -1 ∧
    (update scenario rc_mfc 0 0 ![2, 0, 0] 0 (1 / 250) true).2 0 = 2 ∧
    ((update scenario rc_mfc 0 0 ![2, 0, 0] 0 (1 / 250) true).1._pid_values_pub.head?).map
      (fun r => r.torque 0) = some 0 := by
  have hm : rc_mfc.channels 4 > -1 := by simp [rc_mfc]
  obtain ⟨r, hr, -, h2⟩ :=
    C17_diagnostics_torque scenario rc_mfc 0 0 ![2, 0, 0] 0 (1 / 250) true
  refine ⟨hm, ?_, ?_⟩
  · simp [update, hm, update_mfc, emult, scenario, setMFCGains, setPidGains, idle]
  · rw [hr]
    simp [h2 hm rfl, scenario, setMFCGains, setPidGains, idle]

/-- C18 as stated fails at the boundary: a rate error of exactly 200 deg/s satisfies
|e| <= radians(200) and gives i_factor = 0.75, a reduction of exactly 25%, not less. -/
theorem C18_counterexample :
    |math.radians 200| ≤ math.radians 200 ∧
    i_factor id (math.radians 400) (math.radians 200) = 3 / 4 := by
  constructor
  · rw [abs_of_pos radians_200_pos]
  · norm_num [i_factor, math.max, math.radians, math.M_PI_F]

/-- C18, amended: for every rate error with |e| <= radians(200) the factor
i_factor = max(0, 1 - (e/radians(400))^2) is at least 0.75 (a reduction of at most
25%).  The bound holds for every rounding of the three float operations that is
monotone and leaves 1/4, 1/2, -1/2 and 3/4 unchanged (as rounding to nearest binary32
does), and for every positive reference value with |e| at most half of it. -/
theorem C18_i_factor_bound (fl : ℚ → ℚ) (hmono : Monotone fl) (h12 : fl (1 / 2) = 1 / 2)
    (hm12 : fl (-(1 / 2)) = -(1 / 2)) (h14 : fl (1 / 4) = 1 / 4) (h34 : fl (3 / 4) = 3 / 4)
    (e : ℚ) :
    (|e| ≤ math.radians 200 → i_factor fl (math.radians 400) e ≥ 3 / 4) ∧
    (∀ ref : ℚ, 0 < ref → |e| ≤ ref / 2 → i_factor fl ref e ≥ 3 / 4) := by
  refine ⟨fun h => ?_, fun ref href h => i_factor_ge fl hmono h12 hm12 h14 h34 ref e href h⟩
  refine i_factor_ge fl hmono h12 hm12 h14 h34 _ e ?_ ?_
  · rw [radians_400]; linarith [radians_200_pos]
  · rw [radians_400]; linarith

/-- C18 (amended) at a rate error of 100 deg/s, without rounding. -/
theorem C18_i_factor_bound_witness :
    |math.radians 100| ≤ math.radians 200 ∧
    i_factor id (math.radians 400) (math.radians 100) ≥ 3 / 4 := by
  have hle : |math.radians 100| ≤ math.radians 200 := by
    rw [abs_of_pos (by norm_num [math.radians, math.M_PI_F])]
    norm_num [math.radians, math.M_PI_F]
  exact ⟨hle, (C18_i_factor_bound id monotone_id rfl rfl rfl rfl (math.radians 100)).1 hle⟩

/-- C19: for N >= 2 `push_pop_time` yields t'[i] = t[i+1] - t[0] for 0 <= i <= N-2 and
t'[N-1] = t[N-1] - t[0] + dt; hence if t holds the prefix sums of d_0..d_{N-1}, then t'
holds the prefix sums of d_1..d_{N-1}, dt, and the window span `_mfc_dt` that `F_hat_F`
reads from t'[N-1] is the sum of these last N timesteps. -/
theorem C19_time_rebase_telescopes (s : RateControl) (t : Nat → ℚ) (dt : ℚ) (y z : Bool)
    (m u : Nat → ℚ) (h : 2 ≤ s._mfc_n) :
    (∀ i, i + 2 ≤ s._mfc_n → push_pop_time s t dt i = t (i + 1) - t 0) ∧
    push_pop_time s t dt (s._mfc_n - 1) = t (s._mfc_n - 1) - t 0 + dt ∧
    (∀ d : Nat → ℚ, (∀ i, i < s._mfc_n → t i = ∑ j ∈ Finset.range (i + 1), d j) →
      (∀ i, i < s._mfc_n →
        push_pop_time s t dt i =
          ∑ j ∈ Finset.range (i + 1), (if j + 1 < s._mfc_n then d (j + 1) else dt)) ∧
      (F_hat_F { s with _time_steps := push_pop_time s t dt } y z m u).1._mfc_dt =
        ∑ j ∈ Finset.range s._mfc_n, (if j + 1 < s._mfc_n then d (j + 1) else dt)) := by
  have h1 : ∀ i, i + 2 ≤ s._mfc_n → push_pop_time s t dt i = t (i + 1) - t 0 := by
    intro i hi
    rw [push_pop_time_apply s t dt h, if_pos hi]
  have h2 : push_pop_time s t dt (s._mfc_n - 1) = t (s._mfc_n - 1) - t 0 + dt := by
    rw [push_pop_time_apply s t dt h, if_neg (by omega), if_pos rfl]
  refine ⟨h1, h2, fun d hd => ?_⟩
  have hshift : ∀ k, k < s._mfc_n →
      ∑ j ∈ Finset.range k, (if j + 1 < s._mfc_n then d (j + 1) else dt) =
        ∑ j ∈ Finset.range k, d (j + 1) := by
    intro k hk
    apply Finset.sum_congr rfl
    intro j hj
    have : j + 1 < s._mfc_n := by have := Finset.mem_range.mp hj; omega
    rw [if_pos this]
  have hpre : ∀ k, k < s._mfc_n → t k - t 0 = ∑ j ∈ Finset.range k, d (j + 1) := by
    intro k hk
    rw [hd k hk, hd 0 (by omega), Finset.sum_range_succ' d k]
    simp
  have hlast : push_pop_time s t dt (s._mfc_n - 1) =
      ∑ j ∈ Finset.range s._mfc_n, (if j + 1 < s._mfc_n then d (j + 1) else dt) := by
    obtain ⟨k, hk⟩ : ∃ k, s._mfc_n = k + 1 := ⟨s._mfc_n - 1, by omega⟩
    rw [h2]
    have hk1 : s._mfc_n - 1 = k := by omega
    rw [hk1]
    conv_rhs => rw [hk, Finset.sum_range_succ]
    rw [← hk, hshift k (by omega), if_neg (by omega), hpre k (by omega)]
  constructor
  · intro i hi
    by_cases hi2 : i + 2 ≤ s._mfc_n
    · rw [h1 i hi2, hshift (i + 1) (by omega), hpre (i + 1) (by omega)]
    · have hi3 : i = s._mfc_n - 1 := by omega
      have hi4 : i + 1 = s._mfc_n := by omega
      rw [hi3, hlast]
      have : s._mfc_n - 1 + 1 = s._mfc_n := by omega
      rw [this]
  · rw [F_hat_F_fst]
    exact hlast

/-- C19 at N = 3, time offsets 1, 3, 4 (timesteps 1, 2, 1) and dt = 5: the new
offsets are 2, 3, 8. -/
theorem C19_time_rebase_telescopes_witness :
    2 ≤ jitter._mfc_n ∧
    push_pop_time jitter jitter._time_steps 5 0 = 2 ∧
    push_pop_time jitter jitter._time_steps 5 1 = 3 ∧
    push_pop_time jitter jitter._time_steps 5 2 = 8 := by
  have hn : 2 ≤ jitter._mfc_n := by simp [jitter]
  obtain ⟨h1, h2, -⟩ :=
    C19_time_rebase_telescopes jitter jitter._time_steps 5 false true quad_m quad_u hn
  have h3 : jitter._mfc_n - 1 = 2 := by simp [jitter]
  rw [h3] at h2
  refine ⟨hn, ?_, ?_, ?_⟩
  · rw [h1 0 (by simp [jitter])]; norm_num [jitter]
  · rw [h1 1 (by simp [jitter])]; norm_num [jitter]
  · rw [h2]; norm_num [jitter]

/-- C20: `F_hat(x, y, true, m, u)` depends neither on u nor on lambda; hence
`F_hat_F(false, true, setpoint window, last-output window)`, the setpoint-curvature
estimate of `update_mfc`, is the same for any two last-output windows and any two
values of lambda, for every window length. -/
theorem C20_curvature_ignores_outputs (s : RateControl) (x : ℚ) (y : Bool) (m u u2 l2 : ℚ)
    (mw uw uw2 : Nat → ℚ) :
    F_hat { s with _lambda := l2 } x y true m u2 = F_hat s x y true m u ∧
    (F_hat_F { s with _lambda := l2 } false true mw uw2).2 = (F_hat_F s false true mw uw).2 := by
  constructor
  · cases y <;> simp [F_hat]
  · simp [F_hat_F, F_hat]

end RateControl
